import Mathlib

/-!
# Verification of the iyisiniye hybrid search & cache engine

Shallow embedding of the API's search, autocomplete and restaurant-detail
routes (`apps/api/src/routes/*.ts`) and of the cache helper layer
(`apps/api/src/lib/cache.ts`), with theorems settling the specification
claims about them.

Conventions:
* machine numbers that the code treats as exact (ids, counts, pages) are `Nat`/`Int`;
  SQL `numeric` scores and coordinates are `ℚ`;
* external collaborators (Redis, the Postgres text/trigram/geo operators,
  the JS runtime's `md5` and number printing) are oracle parameters;
* fallible calls return `Except`.
-/

namespace Iyisiniye

/-! ## JS runtime primitives used by the routes -/

/-- The characters `String.prototype.trim` removes (the ASCII ones, which are
the ones that can occur here). -/
def isJsWhitespace (c : Char) : Bool :=
  c = ' ' || c = '\t' || c = '\n' || c = '\r' || c = '\x0b' || c = '\x0c'

/-- JS `s.trim()`. -/
def jsTrim (s : String) : String :=
  String.mk (((s.data.dropWhile isJsWhitespace).reverse.dropWhile
    isJsWhitespace).reverse)

/-- JS `s.toLowerCase()` (codepoint-wise lowering suffices here). -/
def jsToLower (s : String) : String :=
  String.mk (s.data.map Char.toLower)

/-- Lexicographic comparison of character lists by code unit — the order JS
`<` uses on strings. -/
def charListLE : List Char → List Char → Bool
  | [], _ => true
  | _ :: _, [] => false
  | a :: as, b :: bs =>
    if a.toNat < b.toNat then true
    else if b.toNat < a.toNat then false
    else charListLE as bs

/-- JS string `≤`. -/
def strLE (a b : String) : Bool := charListLE a.data b.data

/-- SQL `ORDER BY` / JS `sort()` determinized as a stable sort with a boolean
"may precede" relation. -/
def sqlSort {α : Type} (le : α → α → Bool) (l : List α) : List α :=
  l.insertionSort fun a b => le a b = true

/-! ## Cache layer — `apps/api/src/lib/cache.ts`

The Redis client is modelled at its boundary: `get` may fail (connection
refused, timeout), returning `Except`.  `JSON.parse` of the stored bytes may
also fail, hence the `parse` oracle returns `Except` too. -/

/-- The Redis backend at its boundary: `get` returns the stored string or
`none`, or fails; `set` stores and may fail. -/
structure CacheBackend where
  get : String → Except Unit (Option String)
  set : String → String → Except Unit Unit

/-- The body of `cacheGet` before the `try/catch`: reads from the backend and
deserializes.  Any step may fail. -/
def cacheGetRaw {V : Type} (parse : String → Except Unit V) (b : CacheBackend)
    (key : String) : Except Unit (Option V) :=
  match b.get key with
  | .error e => .error e
  | .ok none => .ok none
  | .ok (some s) =>
    match parse s with
    | .error e => .error e
    | .ok v => .ok (some v)

/-- `cacheGet` from `cache.ts`: the raw read wrapped in `try/catch`; on any
error it returns `null` (here `none`). -/
def cacheGet {V : Type} (parse : String → Except Unit V) (b : CacheBackend)
    (key : String) : Option V :=
  match cacheGetRaw parse b key with
  | .error _ => none
  | .ok v => v

/-- `cacheSet` from `cache.ts`: `redis.set` wrapped in `try/catch`; the
result type records that the caller can observe an error only if one escapes
the catch (it never does). -/
def cacheSet (b : CacheBackend) (key val : String) : Except Unit Unit :=
  match b.set key val with
  | .error _ => .ok ()     -- Redis hatasi — sessizce devam et
  | .ok _ => .ok ()

/-! ## Cache-key derivation — `routes/search.ts`

```
const cacheKey = `search:` + createHash("md5")
  .update(JSON.stringify(Object.fromEntries(Object.entries(request.query).sort())))
  .digest("hex")
```

`Object.entries(q).sort()` sorts the `[key, value]` pairs with the default
comparator, i.e. lexicographically on the string coercion `key + "," +
String(value)`; `JSON.stringify` then serializes the re-assembled object in
that order.  The JS runtime services (md5, number printing) are oracles. -/

/-- A JS value appearing in the validated query object: a string or a number. -/
inductive JsVal where
  | str (s : String)
  | num (n : ℚ)
deriving DecidableEq

/-- JS runtime services used by the key derivation: `crypto` md5 hex digest and
JS number-to-string conversion. -/
structure JsRuntime where
  md5hex : String → String
  jsNum : ℚ → String

/-- JSON escaping of one character inside a string literal
(as `JSON.stringify` produces it for the characters occurring here). -/
def escChar (c : Char) : List Char :=
  if c = '"' then ['\\', '"']
  else if c = '\\' then ['\\', '\\']
  else [c]

/-- JSON escaping of a character list. -/
def escapeL : List Char → List Char
  | [] => []
  | c :: t => escChar c ++ escapeL t

/-- `JSON.stringify` of a string value: quoted, escaped. -/
def jsonStrL (s : List Char) : List Char := '"' :: (escapeL s ++ ['"'])

/-- `String(v)`: the JS string coercion used by the default array sort. -/
def JsVal.coerceStr (rt : JsRuntime) : JsVal → String
  | .str s => s
  | .num n => rt.jsNum n

/-- `JSON.stringify(v)` for a primitive value. -/
def JsVal.toJson (rt : JsRuntime) : JsVal → String
  | .str s => String.mk (jsonStrL s.data)
  | .num n => rt.jsNum n

/-- The string the JS default sort comparator compares an entry by:
`String([k, v]) = k + "," + String(v)`. -/
def entrySortKey (rt : JsRuntime) (e : String × JsVal) : String :=
  e.1 ++ "," ++ e.2.coerceStr rt

/-- `Object.entries(q).sort()`. -/
def sortEntries (rt : JsRuntime) (l : List (String × JsVal)) :
    List (String × JsVal) :=
  sqlSort (fun a b => strLE (entrySortKey rt a) (entrySortKey rt b)) l

def lbrace : Char := Char.ofNat 123
def rbrace : Char := Char.ofNat 125

/-- One `"key":value` member of the serialized object. -/
def renderEntry (rt : JsRuntime) (e : String × JsVal) : List Char :=
  jsonStrL e.1.data ++ ':' :: (e.2.toJson rt).data

/-- The members of the serialized object, comma-separated, with the closing
brace. -/
def renderEntries (rt : JsRuntime) : List (String × JsVal) → List Char
  | [] => [rbrace]
  | [e] => renderEntry rt e ++ [rbrace]
  | e :: e₂ :: t => renderEntry rt e ++ ',' :: renderEntries rt (e₂ :: t)

/-- `JSON.stringify(Object.fromEntries(entries))` for an already-ordered entry
list with distinct keys. -/
def jsonOfEntriesL (rt : JsRuntime) (l : List (String × JsVal)) : List Char :=
  lbrace :: renderEntries rt l

/-- The exact string fed to md5: serialize the sorted entries. -/
def searchKeyInput (rt : JsRuntime) (l : List (String × JsVal)) : String :=
  String.mk (jsonOfEntriesL rt (sortEntries rt l))

/-- The derived cache key of the search route. -/
def searchCacheKey (rt : JsRuntime) (l : List (String × JsVal)) : String :=
  "search:" ++ rt.md5hex (searchKeyInput rt l)

/-- Characters that may occur in a query-object key (the field names of the
search query are lower-case identifiers). -/
def isKeyChar (c : Char) : Bool :=
  (decide ('a' ≤ c) && decide (c ≤ 'z')) || c = '_'

/-- Characters that can occur in a JS number rendered as a string. -/
def isNumChar (c : Char) : Bool :=
  c.isDigit || c = '.' || c = '-' || c = '+' || c = 'e' || c = 'E'

/-- Well-formedness of an entry: its key is a nonempty lower-case identifier. -/
structure WFEntry (e : String × JsVal) : Prop where
  key_nonempty : e.1.data ≠ []
  key_chars : ∀ c ∈ e.1.data, isKeyChar c = true

/-- Well-formedness of an entry value: a string is unconstrained (escaping
copes with anything); a number must print nonempty and with number
characters only. -/
def WFVal (rt : JsRuntime) : JsVal → Prop
  | .str _ => True
  | .num n => (rt.jsNum n).data ≠ [] ∧ ∀ c ∈ (rt.jsNum n).data, isNumChar c = true

/-- The grammar of properly escaped JSON string content: every `"` or `\`
occurs inside an escape pair. -/
inductive EscGood : List Char → Prop where
  | nil : EscGood []
  | plain (c : Char) (t : List Char) :
    c ≠ '"' → c ≠ '\\' → EscGood t → EscGood (c :: t)
  | esc (c : Char) (t : List Char) : EscGood t → EscGood ('\\' :: c :: t)

/-- The shapes a serialized JSON value can take here: a quoted escaped
string, or a nonempty run of number characters. -/
inductive ValGood : List Char → Prop where
  | str (s : List Char) : ValGood (jsonStrL s)
  | num (l : List Char) : l ≠ [] → (∀ c ∈ l, isNumChar c = true) → ValGood l

/-! ## Storage rows — `packages/db/src/schema.ts` (the columns the routes read) -/

/-- A row of `restaurants`.  `location` is `(lat, lng)`. -/
structure Restaurant where
  id : Nat
  name : String
  slug : String
  address : Option String
  district : Option String
  neighborhood : Option String
  cuisineType : Option (List String)
  priceRange : Option Nat
  overallScore : Option ℚ
  totalReviews : Nat
  imageUrl : Option String
  isActive : Bool
  location : Option (ℚ × ℚ)
  createdAt : Int
deriving DecidableEq, Repr

/-- A row of `food_scores` (the columns the search route reads). -/
structure FoodScore where
  restaurantId : Nat
  foodName : String
  score : Option ℚ
  reviewCount : Nat
deriving DecidableEq, Repr

/-- A row of `dishes` (the columns the autocomplete route reads);
`searchVector` is the precomputed `tsvector` column. -/
structure Dish where
  id : Nat
  name : String
  slug : String
  category : Option String
  canonicalName : Option String
  searchVector : String
deriving DecidableEq, Repr

/-- The Postgres operators the queries rely on (text search, `pg_trgm`,
PostGIS), modelled as oracles at the storage boundary. -/
structure PgOracle where
  ftsMatch : String → String → Bool
  tsvMatch : String → String → Bool
  similarity : String → String → ℚ
  geoDistanceMeters : ℚ × ℚ → ℚ × ℚ → ℚ
  unaccentLower : String → String

/-! ## Query validation — the Zod `SearchQuerySchema` of `routes/search.ts`

`RawQuery` carries the request parameters after the framework's
string-to-number coercion (`z.coerce`), with `none` for absent parameters;
`zodValidate` performs the schema's presence/range checks and defaults. -/

inductive SortBy where
  | score
  | distance
  | newest
deriving DecidableEq, Repr

def SortBy.toStr : SortBy → String
  | .score => "score"
  | .distance => "distance"
  | .newest => "newest"

/-- The validated query object (`request.query` inside the handler). -/
structure SearchQuery where
  q : String
  district : Option String
  cuisine : Option String
  price_range : Option Nat
  min_score : Option ℚ
  sort_by : SortBy
  page : Nat
  limit : Nat
  lat : Option ℚ
  lng : Option ℚ
deriving DecidableEq, Repr

/-- Raw request parameters (post-coercion, pre-validation). -/
structure RawQuery where
  q : Option String
  district : Option String
  cuisine : Option String
  price_range : Option Int
  min_score : Option ℚ
  sort_by : Option String
  page : Option Int
  limit : Option Int
  lat : Option ℚ
  lng : Option ℚ
deriving DecidableEq, Repr

/-- The `cuisine` enum of the schema. -/
def validCuisines : List String :=
  ["turk", "kebap", "balik", "doner", "pide_lahmacun", "ev_yemekleri",
   "sokak_lezzetleri", "tatli_pasta", "kahvalti", "italyan", "uzakdogu",
   "fast_food", "vegan", "diger"]

/-- `z.string().min(2).max(100)` on the raw (untrimmed) `q`. -/
def zodQCheck (s : String) : Bool :=
  decide (2 ≤ s.length) && decide (s.length ≤ 100)

/-- `sort_by: z.enum(["score","distance","newest"]).default("score")`. -/
def parseSortBy : Option String → Option SortBy
  | none => some .score
  | some s =>
    if s = "score" then some .score
    else if s = "distance" then some .distance
    else if s = "newest" then some .newest
    else none

/-- `district: z.string().max(100).optional()`. -/
def vDistrict : Option String → Option (Option String)
  | none => some none
  | some d => if d.length ≤ 100 then some (some d) else none

/-- `cuisine: z.enum([...]).optional()`. -/
def vCuisine : Option String → Option (Option String)
  | none => some none
  | some c => if c ∈ validCuisines then some (some c) else none

/-- `price_range: z.coerce.number().int().min(1).max(4).optional()`. -/
def vPrice : Option Int → Option (Option Nat)
  | none => some none
  | some p => if 1 ≤ p ∧ p ≤ 4 then some (some p.toNat) else none

/-- `min_score: z.coerce.number().min(1).max(10).optional()`. -/
def vMinScore : Option ℚ → Option (Option ℚ)
  | none => some none
  | some m => if 1 ≤ m ∧ m ≤ 10 then some (some m) else none

/-- `page: z.coerce.number().int().positive().default(1)`. -/
def vPage : Option Int → Option Nat
  | none => some 1
  | some p => if 0 < p then some p.toNat else none

/-- `limit: z.coerce.number().int().min(1).max(50).default(20)`. -/
def vLimit : Option Int → Option Nat
  | none => some 20
  | some l => if 1 ≤ l ∧ l ≤ 50 then some l.toNat else none

/-- `lat: z.coerce.number().min(-90).max(90).optional()`. -/
def vLat : Option ℚ → Option (Option ℚ)
  | none => some none
  | some a => if -90 ≤ a ∧ a ≤ 90 then some (some a) else none

/-- `lng: z.coerce.number().min(-180).max(180).optional()`. -/
def vLng : Option ℚ → Option (Option ℚ)
  | none => some none
  | some o => if -180 ≤ o ∧ o ≤ 180 then some (some o) else none

/-- The field checks of `SearchQuerySchema` after the `q` rule: ranges,
enums, defaults. -/
def zodValidateRest (r : RawQuery) (qs : String) : Option SearchQuery := do
  let district ← vDistrict r.district
  let cuisine ← vCuisine r.cuisine
  let price ← vPrice r.price_range
  let minScore ← vMinScore r.min_score
  let sortBy ← parseSortBy r.sort_by
  let page ← vPage r.page
  let limit ← vLimit r.limit
  let lat ← vLat r.lat
  let lng ← vLng r.lng
  pure { q := qs, district, cuisine, price_range := price,
         min_score := minScore, sort_by := sortBy, page, limit, lat, lng }

/-- The whole `SearchQuerySchema` check: presence, ranges, defaults. -/
def zodValidate (r : RawQuery) : Option SearchQuery := do
  let qs ← r.q
  if zodQCheck qs then zodValidateRest r qs else none

/-! ## Predicate builder — the `conditions` array of `routes/search.ts` -/

/-- One SQL fragment pushed onto `conditions`. -/
inductive Cond where
  | active
  | textMatch (q : String)
  | district (d : String)
  | cuisine (c : String)
  | price (p : Nat)
  | minScore (m : ℚ)
  | geoRadius (lat lng : ℚ)
deriving DecidableEq, Repr

/-- The dynamic `WHERE` condition list.  Mirrors the handler: `isActive` and
the FTS/trigram disjunction always; each filter appended when its parameter
is present (JS truthiness: an empty string or a zero number skips the
branch). -/
def buildConditions (sq : SearchQuery) : List Cond :=
  [Cond.active, Cond.textMatch sq.q]
    ++ (match sq.district with
        | some d => if d = "" then [] else [Cond.district d]
        | none => [])
    ++ (match sq.cuisine with
        | some c => if c = "" then [] else [Cond.cuisine c]
        | none => [])
    ++ (match sq.price_range with
        | some p => if p = 0 then [] else [Cond.price p]
        | none => [])
    ++ (match sq.min_score with
        | some m => if m = 0 then [] else [Cond.minScore m]
        | none => [])
    ++ (match sq.lat, sq.lng with
        | some la, some ln => [Cond.geoRadius la ln]
        | _, _ => [])

/-- `coalesce(name,'') || ' ' || coalesce(address,'')` — the FTS document. -/
def searchDoc (r : Restaurant) : String :=
  r.name ++ " " ++ r.address.getD ""

/-- The trigram similarity threshold `0.2` (in lowest terms, `1/5`). -/
def simThreshold : ℚ := ⟨1, 5, by decide, by decide⟩

/-- Evaluation of one condition on a row (SQL three-valued logic collapses to
`false` on `NULL` operands in a `WHERE` context). -/
def evalCond (pg : PgOracle) (r : Restaurant) : Cond → Bool
  | .active => r.isActive
  | .textMatch q =>
    pg.ftsMatch (searchDoc r) q || decide (pg.similarity r.name q > simThreshold)
  | .district d =>
    match r.district with
    | some rd => rd.toLower = d.toLower
    | none => false
  | .cuisine c =>
    match r.cuisineType with
    | some l => c ∈ l
    | none => false
  | .price p => r.priceRange = some p
  | .minScore m =>
    match r.overallScore with
    | some s => m ≤ s
    | none => false
  | .geoRadius lat lng =>
    match r.location with
    | some loc => pg.geoDistanceMeters loc (lat, lng) ≤ 10000
    | none => false

/-- A row passes the conjoined `WHERE` clause. -/
def rowPasses (pg : PgOracle) (conds : List Cond) (r : Restaurant) : Bool :=
  conds.all (evalCond pg r)

/-! ## Ranking — the `orderClause` switch of `routes/search.ts` -/

/-- Postgres `expr ASC` on a nullable numeric: nulls sort last by default. -/
def ascNullsLast : Option ℚ → Option ℚ → Bool
  | none, none => true
  | none, some _ => false
  | some _, none => true
  | some a, some b => decide (a ≤ b)

/-- Postgres `expr DESC NULLS LAST`. -/
def descNullsLast : Option ℚ → Option ℚ → Bool
  | none, none => true
  | none, some _ => false
  | some _, none => true
  | some a, some b => decide (b ≤ a)

/-- Postgres `expr DESC` on a nullable numeric: nulls sort first by default. -/
def descNullsFirst : Option ℚ → Option ℚ → Bool
  | none, _ => true
  | some _, none => false
  | some a, some b => decide (b ≤ a)

/-- `ST_Distance(location::geography, ST_MakePoint(lng, lat)::geography)` —
`NULL` when the row has no location. -/
def distExpr (pg : PgOracle) (lat lng : ℚ) (r : Restaurant) : Option ℚ :=
  r.location.map fun loc => pg.geoDistanceMeters loc (lat, lng)

/-- The single `ORDER BY` expression the route builds: distance ascending, or
`created_at DESC`, or `overall_score DESC NULLS LAST`.  The distance branch is
reached only when both coordinates are present (the handler rejects
otherwise). -/
def orderLE (pg : PgOracle) (sq : SearchQuery) (a b : Restaurant) : Bool :=
  match sq.sort_by with
  | .distance =>
    ascNullsLast (distExpr pg (sq.lat.getD 0) (sq.lng.getD 0) a)
      (distExpr pg (sq.lat.getD 0) (sq.lng.getD 0) b)
  | .newest => decide (b.createdAt ≤ a.createdAt)
  | .score => descNullsLast a.overallScore b.overallScore

/-! ## Result assembly — the storage queries and response envelope -/

/-- The rows satisfying the conjoined `WHERE` clause. -/
def filteredRows (pg : PgOracle) (sq : SearchQuery) (tbl : List Restaurant) :
    List Restaurant :=
  tbl.filter (rowPasses pg (buildConditions sq))

/-- The primary paginated query: filter, order, `OFFSET (page-1)*limit`,
`LIMIT limit`. -/
def pageQueryRows (pg : PgOracle) (sq : SearchQuery) (tbl : List Restaurant) :
    List Restaurant :=
  ((sqlSort (orderLE pg sq) (filteredRows pg sq tbl)).drop
    ((sq.page - 1) * sq.limit)).take sq.limit

/-- The companion `count(*)` query over the same `WHERE` clause. -/
def countQueryTotal (pg : PgOracle) (sq : SearchQuery) (tbl : List Restaurant) :
    Nat :=
  (filteredRows pg sq tbl).length

/-- The batched top-dishes query: `restaurant_id IN (ids) AND score IS NOT
NULL ORDER BY score DESC`. -/
def topDishesRows (fs : List FoodScore) (ids : List Nat) : List FoodScore :=
  sqlSort (fun a b => descNullsFirst a.score b.score)
    (fs.filter fun d => decide (d.restaurantId ∈ ids) && decide (d.score ≠ none))

/-- One `topDishes` entry of the response. -/
structure DishOut where
  foodName : String
  score : Option ℚ
  reviewCount : Nat
deriving DecidableEq, Repr

def dishEntry (d : FoodScore) : DishOut :=
  { foodName := d.foodName, score := d.score, reviewCount := d.reviewCount }

/-- One step of the `dishMap` loop: push the row onto its restaurant's list
when that list still has fewer than 3 entries. -/
def dishMapStep (m : Nat → List DishOut) (d : FoodScore) : Nat → List DishOut :=
  fun v =>
    if v = d.restaurantId ∧ (m d.restaurantId).length < 3 then
      m v ++ [dishEntry d]
    else m v

/-- The `dishMap` built by folding the loop over the query rows. -/
def buildDishMap (rows : List FoodScore) : Nat → List DishOut :=
  rows.foldl dishMapStep fun _ => []

/-- One element of the response `data` array. -/
structure VenueOut where
  id : Nat
  name : String
  slug : String
  address : Option String
  district : Option String
  neighborhood : Option String
  cuisineType : Option (List String)
  priceRange : Option Nat
  overallScore : Option ℚ
  totalReviews : Nat
  imageUrl : Option String
  distance : Option ℚ
  topDishes : List DishOut
deriving DecidableEq, Repr

structure Pagination where
  page : Nat
  limit : Nat
  total : Nat
  totalPages : Nat
  hasNext : Bool
  hasPrev : Bool
deriving DecidableEq, Repr

structure AppliedFilters where
  district : Option String
  cuisine : Option String
  priceRange : Option Nat
  minScore : Option ℚ
deriving DecidableEq, Repr

structure SearchMeta where
  query : String
  appliedFilters : AppliedFilters
  sortBy : SortBy
deriving DecidableEq, Repr

structure SearchResponse where
  data : List VenueOut
  pagination : Pagination
  meta : SearchMeta
deriving DecidableEq, Repr

/-- `Math.ceil(a / b)` on nonnegative integers with `b > 0`. -/
def ceilDiv (a b : Nat) : Nat := (a + b - 1) / b

/-- The `distance_km` select column, surfaced as `distance` in the response:
`ST_Distance(...)/1000` when the request carries coordinates, else `null`. -/
def venueDistance (pg : PgOracle) (sq : SearchQuery) (r : Restaurant) :
    Option ℚ :=
  match sq.lat, sq.lng with
  | some la, some ln => (distExpr pg la ln r).map fun d => d / 1000
  | _, _ => none

def venueOut (pg : PgOracle) (sq : SearchQuery) (dm : Nat → List DishOut)
    (r : Restaurant) : VenueOut :=
  { id := r.id, name := r.name, slug := r.slug, address := r.address,
    district := r.district, neighborhood := r.neighborhood,
    cuisineType := r.cuisineType, priceRange := r.priceRange,
    overallScore := r.overallScore, totalReviews := r.totalReviews,
    imageUrl := r.imageUrl, distance := venueDistance pg sq r,
    topDishes := dm r.id }

/-- The response envelope: data, pagination block, applied-filter echo. -/
def assembleResponse (pg : PgOracle) (sq : SearchQuery)
    (results : List Restaurant) (total : Nat) (dm : Nat → List DishOut) :
    SearchResponse :=
  let totalPages := ceilDiv total sq.limit
  { data := results.map (venueOut pg sq dm),
    pagination :=
      { page := sq.page, limit := sq.limit, total := total,
        totalPages := totalPages, hasNext := decide (sq.page < totalPages),
        hasPrev := decide (1 < sq.page) },
    meta :=
      { query := sq.q,
        appliedFilters :=
          { district := sq.district, cuisine := sq.cuisine,
            priceRange := sq.price_range, minScore := sq.min_score },
        sortBy := sq.sort_by } }

/-! ## The search route — control flow with its I/O trace -/

/-- An I/O action issued by the route, in order. -/
inductive Ev where
  | cacheGetEv (key : String)
  | cacheSetEv (key : String)
  | storagePage
  | storageCount
  | storageDishes
deriving DecidableEq, Repr

/-- The observable outcome of one request to `/api/v1/search`. -/
inductive SearchResult where
  | schemaError
  | cached (v : SearchResponse)
  | invalid (status : Nat) (message : String)
  | ok (resp : SearchResponse)
deriving DecidableEq, Repr

/-- Everything a single request runs against: the oracles, the cache backend,
payload (de)serialization, and the storage tables. -/
structure SearchCtx where
  pg : PgOracle
  rt : JsRuntime
  backend : CacheBackend
  parse : String → Except Unit SearchResponse
  ser : SearchResponse → String
  restaurants : List Restaurant
  foodScores : List FoodScore

/-- The entry list of the validated query object (present fields only;
`sort_by`, `page`, `limit` always present via schema defaults). -/
def queryEntries (sq : SearchQuery) : List (String × JsVal) :=
  [("q", JsVal.str sq.q)]
    ++ (match sq.district with
        | some d => [("district", JsVal.str d)] | none => [])
    ++ (match sq.cuisine with
        | some c => [("cuisine", JsVal.str c)] | none => [])
    ++ (match sq.price_range with
        | some p => [("price_range", JsVal.num p)] | none => [])
    ++ (match sq.min_score with
        | some m => [("min_score", JsVal.num m)] | none => [])
    ++ [("sort_by", JsVal.str sq.sort_by.toStr),
        ("page", JsVal.num sq.page), ("limit", JsVal.num sq.limit)]
    ++ (match sq.lat with | some a => [("lat", JsVal.num a)] | none => [])
    ++ (match sq.lng with | some o => [("lng", JsVal.num o)] | none => [])

/-- The cache key the handler derives for a validated query. -/
def searchKeyOf (rt : JsRuntime) (sq : SearchQuery) : String :=
  searchCacheKey rt (queryEntries sq)

/-- `sort_by === "distance" && (lat == null || lng == null)`. -/
def distanceCoordMissing (sq : SearchQuery) : Bool :=
  decide (sq.sort_by = .distance)
    && (decide (sq.lat = none) || decide (sq.lng = none))

def coordErrorMsg : String :=
  "Mesafeye gore siralama icin lat ve lng parametreleri gereklidir."

/-- The venue ids returned on the current page. -/
def pageIds (ctx : SearchCtx) (sq : SearchQuery) : List Nat :=
  (pageQueryRows ctx.pg sq ctx.restaurants).map (·.id)

/-- The response computed from storage on a cache miss: the paginated query,
the count query, the batched top-dishes query (only when the page is
nonempty), and the envelope. -/
def storageResponse (ctx : SearchCtx) (sq : SearchQuery) : SearchResponse :=
  let results := pageQueryRows ctx.pg sq ctx.restaurants
  let total := countQueryTotal ctx.pg sq ctx.restaurants
  let dishRows :=
    if 0 < (pageIds ctx sq).length then
      topDishesRows ctx.foodScores (pageIds ctx sq)
    else []
  assembleResponse ctx.pg sq results total (buildDishMap dishRows)

/-- The `/api/v1/search` handler body: cache lookup, the coordinate check,
the storage queries, assembly, cache store — with the I/O actions it issues. -/
def searchHandler (ctx : SearchCtx) (sq : SearchQuery) :
    SearchResult × List Ev :=
  match cacheGet ctx.parse ctx.backend (searchKeyOf ctx.rt sq) with
  | some v => (.cached v, [.cacheGetEv (searchKeyOf ctx.rt sq)])
  | none =>
    if distanceCoordMissing sq then
      (.invalid 400 coordErrorMsg, [.cacheGetEv (searchKeyOf ctx.rt sq)])
    else
      (.ok (storageResponse ctx sq),
        [.cacheGetEv (searchKeyOf ctx.rt sq), .storagePage, .storageCount]
          ++ (if 0 < (pageIds ctx sq).length then [.storageDishes] else [])
          ++ [.cacheSetEv (searchKeyOf ctx.rt sq)])

/-- The full route: the framework validates against the Zod schema before the
handler runs (a schema failure issues no I/O), then the handler. -/
def searchPipeline (ctx : SearchCtx) (raw : RawQuery) :
    SearchResult × List Ev :=
  match zodValidate raw with
  | none => (.schemaError, [])
  | some sq => searchHandler ctx sq

/-! ## Restaurant detail — `routes/restaurant.ts`

The handler checks the cache, then runs
`SELECT * FROM restaurants WHERE slug = $1 AND is_active = true LIMIT 1`;
an empty result is a 404.  The subsequent assembly queries (platforms, food
scores, reviews, sentiment) all key off the found row and are orthogonal to
the lookup semantics modelled here. -/

/-- The first stage of the detail route's observable outcome. -/
inductive DetailResult where
  | cached (v : String)
  | notFound (message : String)
  | found (r : Restaurant)
deriving DecidableEq, Repr

/-- The detail query:
`WHERE slug = $1 AND is_active = true LIMIT 1`. -/
def restaurantLookup (tbl : List Restaurant) (slug : String) :
    List Restaurant :=
  (tbl.filter fun r => decide (r.slug = slug) && r.isActive).take 1

/-- The `/api/v1/restaurants/:slug` handler up to the 404 decision. -/
def restaurantDetailHandler (backend : CacheBackend)
    (parse : String → Except Unit String) (tbl : List Restaurant)
    (slug : String) : DetailResult :=
  match cacheGet parse backend ("restaurant:" ++ slug) with
  | some v => .cached v
  | none =>
    match restaurantLookup tbl slug with
    | [] => .notFound ("Restoran bulunamadi: " ++ slug)
    | r :: _ => .found r

/-! ## Autocomplete — `src/unnamed/part_001` (`routes/autocomplete.ts`) -/

/-- `coalesce(canonical_name, name)` — the dish text the trigram operator
runs on. -/
def dishSimDoc (d : Dish) : String := d.canonicalName.getD d.name

/-- The restaurant suggestion `WHERE` clause:
`(similarity(name, q) > 0.2 OR to_tsvector('turkish', name) @@ ...) AND
is_active = true`. -/
def acRestaurantWhere (pg : PgOracle) (q : String) (r : Restaurant) : Bool :=
  (decide (pg.similarity r.name q > simThreshold) || pg.ftsMatch r.name q) && r.isActive

/-- The restaurant suggestion ordering:
`ORDER BY similarity(name, q) DESC, overall_score DESC` (lexicographic;
Postgres `DESC` puts nulls first). -/
def acRestaurantLE (pg : PgOracle) (q : String) (a b : Restaurant) : Bool :=
  decide (pg.similarity b.name q < pg.similarity a.name q)
    || (decide (pg.similarity a.name q = pg.similarity b.name q)
        && descNullsFirst a.overallScore b.overallScore)

/-- The restaurant suggestion query: filter, order, `LIMIT 5`. -/
def autocompleteRestaurants (pg : PgOracle) (tbl : List Restaurant)
    (q : String) : List Restaurant :=
  (sqlSort (acRestaurantLE pg q) (tbl.filter (acRestaurantWhere pg q))).take 5

/-- The dish suggestion `WHERE` clause:
`similarity(coalesce(canonical_name, name), q) > 0.2 OR search_vector @@ ...`. -/
def acDishWhere (pg : PgOracle) (q : String) (d : Dish) : Bool :=
  decide (pg.similarity (dishSimDoc d) q > simThreshold) || pg.tsvMatch d.searchVector q

/-- The dish suggestion ordering:
`ORDER BY similarity(coalesce(canonical_name, name), q) DESC`. -/
def acDishLE (pg : PgOracle) (q : String) (a b : Dish) : Bool :=
  decide (pg.similarity (dishSimDoc b) q ≤ pg.similarity (dishSimDoc a) q)

/-- The dish suggestion query: filter, order, `LIMIT 5`. -/
def autocompleteDishes (pg : PgOracle) (tbl : List Dish) (q : String) :
    List Dish :=
  (sqlSort (acDishLE pg q) (tbl.filter (acDishWhere pg q))).take 5

/-- The correlated subquery
`count(DISTINCT restaurant_id) FROM food_scores WHERE
lower(unaccent(food_name)) = lower(unaccent(coalesce(canonical_name, name)))`. -/
def dishRestaurantCount (pg : PgOracle) (fs : List FoodScore) (d : Dish) :
    Nat :=
  (((fs.filter fun f =>
      pg.unaccentLower f.foodName = pg.unaccentLower (dishSimDoc d)).map
        (·.restaurantId)).dedup).length

/-- One restaurant suggestion in the response (similarity column stripped). -/
structure AcRestaurantOut where
  id : Nat
  name : String
  slug : String
  district : Option String
  cuisineType : Option (List String)
  overallScore : Option ℚ
deriving DecidableEq, Repr

/-- One dish suggestion in the response. -/
structure AcDishOut where
  id : Nat
  name : String
  slug : String
  category : Option String
  restaurantCount : Nat
deriving DecidableEq, Repr

structure AcResponse where
  restaurants : List AcRestaurantOut
  dishes : List AcDishOut
deriving DecidableEq, Repr

def acRestaurantOut (r : Restaurant) : AcRestaurantOut :=
  { id := r.id, name := r.name, slug := r.slug, district := r.district,
    cuisineType := r.cuisineType, overallScore := r.overallScore }

def acDishOut (pg : PgOracle) (fs : List FoodScore) (d : Dish) : AcDishOut :=
  { id := d.id, name := d.name, slug := d.slug, category := d.category,
    restaurantCount := dishRestaurantCount pg fs d }

/-- The assembled autocomplete response for a (trimmed) query. -/
def acResponseOf (pg : PgOracle) (rtbl : List Restaurant) (dtbl : List Dish)
    (fs : List FoodScore) (q : String) : AcResponse :=
  { restaurants := (autocompleteRestaurants pg rtbl q).map acRestaurantOut,
    dishes := (autocompleteDishes pg dtbl q).map (acDishOut pg fs) }

/-- The observable outcome of one request to `/api/v1/autocomplete`. -/
inductive AcResult where
  | cached (v : AcResponse)
  | ok (resp : AcResponse)
deriving DecidableEq, Repr

/-- The autocomplete cache key: `autocomplete:` + the trimmed query,
lower-cased and trimmed again. -/
def acKeyOf (rawQ : String) : String :=
  "autocomplete:" ++ jsTrim (jsToLower (jsTrim rawQ))

/-- The `/api/v1/autocomplete` handler: trim, cache check, the two parallel
suggestion queries (on a miss the response is also stored with TTL 3600 via
`cacheSet`, which returns no observable value). -/
def autocompleteHandler (pg : PgOracle) (backend : CacheBackend)
    (parse : String → Except Unit AcResponse)
    (rtbl : List Restaurant) (dtbl : List Dish) (fs : List FoodScore)
    (rawQ : String) : AcResult :=
  match cacheGet parse backend (acKeyOf rawQ) with
  | some v => .cached v
  | none => .ok (acResponseOf pg rtbl dtbl fs (jsTrim rawQ))

/-! ## Concrete fixtures (used to instantiate oracles in closed statements) -/

/-- An oracle whose FTS always matches (and other operators are trivial). -/
def pgT : PgOracle :=
  { ftsMatch := fun _ _ => true, tsvMatch := fun _ _ => false,
    similarity := fun _ _ => 0, geoDistanceMeters := fun _ _ => 0,
    unaccentLower := fun s => s }

/-- A concrete JS runtime with a constant 32-character digest. -/
def rt0 : JsRuntime :=
  { md5hex := fun _ => "0123456789abcdef0123456789abcdef",
    jsNum := fun _ => "0" }

/-- A backend that always misses. -/
def missBackend : CacheBackend :=
  { get := fun _ => .ok none, set := fun _ _ => .ok () }

/-- A backend that fails on every call. -/
def errBackend : CacheBackend :=
  { get := fun _ => .error (), set := fun _ _ => .error () }

/-- A search context over empty tables with an always-miss cache. -/
def ctxMiss : SearchCtx :=
  { pg := pgT, rt := rt0, backend := missBackend,
    parse := fun _ => .error (), ser := fun _ => "",
    restaurants := [], foodScores := [] }

/-- The same context with a failing cache backend. -/
def ctxErr : SearchCtx := { ctxMiss with backend := errBackend }

/-- A plain validated query (all defaults, no optional filters). -/
def sqPlain : SearchQuery :=
  { q := "kebap", district := none, cuisine := none, price_range := none,
    min_score := none, sort_by := .score, page := 1, limit := 20,
    lat := none, lng := none }

/-- A distance-sorted query missing both coordinates. -/
def sqDistNoCoord : SearchQuery := { sqPlain with sort_by := .distance }

/-- An inactive restaurant row. -/
def restInactive : Restaurant :=
  { id := 1, name := "Kapali Yer", slug := "kapali-yer", address := none,
    district := none, neighborhood := none, cuisineType := none,
    priceRange := none, overallScore := none, totalReviews := 0,
    imageUrl := none, isActive := false, location := none, createdAt := 0 }

/-- An active venue with a low reputation score, at `(41, 29)`. -/
def restTieLow : Restaurant :=
  { id := 1, name := "Dusuk Puanli", slug := "dusuk-puanli", address := none,
    district := none, neighborhood := none, cuisineType := none,
    priceRange := none, overallScore := some 2, totalReviews := 0,
    imageUrl := none, isActive := true, location := some (41, 29),
    createdAt := 0 }

/-- An active venue with a high reputation score, at the same point. -/
def restTieHigh : Restaurant :=
  { restTieLow with
    id := 2, name := "Yuksek Puanli", slug := "yuksek-puanli",
    overallScore := some 9 }

/-- A context whose storage holds the two equidistant venues, low-scored row
first. -/
def ctxTie : SearchCtx := { ctxMiss with restaurants := [restTieLow, restTieHigh] }

/-- A distance-sorted query from exactly the venues' location. -/
def sqDist : SearchQuery :=
  { sqPlain with sort_by := .distance, lat := some 41, lng := some 29 }

/-- Modelled from the spec (§4.3 ranking table): distance from origin
ascending, ties broken by reputation score descending. -/
def specDistanceLE (a b : VenueOut) : Bool :=
  match a.distance, b.distance with
  | some da, some db =>
    decide (da < db) ||
      (decide (da = db) && descNullsLast a.overallScore b.overallScore)
  | _, _ => true

/-- The page row of `restTieLow` under `sqDist` in `ctxTie`. -/
def vOutLow : VenueOut :=
  { id := 1, name := "Dusuk Puanli", slug := "dusuk-puanli", address := none,
    district := none, neighborhood := none, cuisineType := none,
    priceRange := none, overallScore := some 2, totalReviews := 0,
    imageUrl := none, distance := some ((0 : ℚ) / 1000), topDishes := [] }

/-- The page row of `restTieHigh` under `sqDist` in `ctxTie`. -/
def vOutHigh : VenueOut :=
  { vOutLow with
    id := 2, name := "Yuksek Puanli", slug := "yuksek-puanli",
    overallScore := some 9 }

/-- A schema-valid raw request asking for distance sort without coordinates. -/
def rawDistNoCoord : RawQuery :=
  { q := some "kebap", district := none, cuisine := none, price_range := none,
    min_score := none, sort_by := some "distance", page := none, limit := none,
    lat := none, lng := none }

/-- A raw request whose query is a single character (schema-invalid). -/
def rawShortQ : RawQuery := { rawDistNoCoord with q := some "a", sort_by := none }

/-- A raw request whose query is `" a "`: raw length 3, trimmed length 1. -/
def rawPadded : RawQuery := { rawDistNoCoord with q := some " a ", sort_by := none }

/-- The validated query `rawPadded` produces. -/
def sqPadded : SearchQuery := { sqPlain with q := " a " }

/-- The entries of a query with `q` and `district`, in schema order. -/
def entriesQD : List (String × JsVal) :=
  [("q", JsVal.str "kebap"), ("district", JsVal.str "kadikoy")]

/-- The same entries supplied in the opposite order. -/
def entriesDQ : List (String × JsVal) :=
  [("district", JsVal.str "kadikoy"), ("q", JsVal.str "kebap")]

/-! ## General lemmas about the embedded operations -/

/-- A backend `get` failure makes `cacheGet` a miss. -/
theorem cacheGet_backend_error {V : Type} (parse : String → Except Unit V)
    (b : CacheBackend) (key : String) (h : b.get key = .error ()) :
    cacheGet parse b key = none := by
  simp only [cacheGet, cacheGetRaw, h]

/-- A deserialization failure makes `cacheGet` a miss. -/
theorem cacheGet_parse_error {V : Type} (parse : String → Except Unit V)
    (b : CacheBackend) (key s : String) (h : b.get key = .ok (some s))
    (hp : parse s = .error ()) : cacheGet parse b key = none := by
  simp only [cacheGet, cacheGetRaw, h, hp]

/-- The always-miss backend always misses. -/
theorem cacheGet_missBackend {V : Type} (parse : String → Except Unit V)
    (key : String) : cacheGet parse missBackend key = none := rfl

theorem sqlSort_perm {α : Type} (le : α → α → Bool) (l : List α) :
    (sqlSort le l).Perm l :=
  List.perm_insertionSort _ l

theorem sqlSort_pairwise {α : Type} (le : α → α → Bool)
    (htrans : ∀ a b c, le a b = true → le b c = true → le a c = true)
    (htotal : ∀ a b, le a b = true ∨ le b a = true) (l : List α) :
    (sqlSort le l).Pairwise fun a b => le a b = true := by
  haveI : IsTotal α fun a b => le a b = true := ⟨htotal⟩
  haveI : IsTrans α fun a b => le a b = true := ⟨fun a b c => htrans a b c⟩
  exact List.sorted_insertionSort _ l

theorem ascNullsLast_total (a b : Option ℚ) :
    ascNullsLast a b = true ∨ ascNullsLast b a = true := by
  cases a <;> cases b <;> simp [ascNullsLast] <;> exact le_total _ _

theorem ascNullsLast_trans (a b c : Option ℚ)
    (hab : ascNullsLast a b = true) (hbc : ascNullsLast b c = true) :
    ascNullsLast a c = true := by
  cases a <;> cases b <;> cases c <;>
    simp_all [ascNullsLast] <;> exact le_trans hab hbc

theorem descNullsLast_total (a b : Option ℚ) :
    descNullsLast a b = true ∨ descNullsLast b a = true := by
  cases a <;> cases b <;> simp [descNullsLast] <;> exact le_total _ _

theorem descNullsLast_trans (a b c : Option ℚ)
    (hab : descNullsLast a b = true) (hbc : descNullsLast b c = true) :
    descNullsLast a c = true := by
  cases a <;> cases b <;> cases c <;>
    simp_all [descNullsLast] <;> exact le_trans hbc hab

theorem descNullsFirst_total (a b : Option ℚ) :
    descNullsFirst a b = true ∨ descNullsFirst b a = true := by
  cases a <;> cases b <;> simp [descNullsFirst] <;> exact le_total _ _

theorem descNullsFirst_trans (a b c : Option ℚ)
    (hab : descNullsFirst a b = true) (hbc : descNullsFirst b c = true) :
    descNullsFirst a c = true := by
  cases a <;> cases b <;> cases c <;>
    simp_all [descNullsFirst] <;> exact le_trans hbc hab

theorem orderLE_total (pg : PgOracle) (sq : SearchQuery) (a b : Restaurant) :
    orderLE pg sq a b = true ∨ orderLE pg sq b a = true := by
  cases hs : sq.sort_by <;> simp only [orderLE, hs]
  · exact descNullsLast_total _ _
  · exact ascNullsLast_total _ _
  · simp only [decide_eq_true_eq]; exact le_total _ _

theorem orderLE_trans (pg : PgOracle) (sq : SearchQuery) (a b c : Restaurant)
    (hab : orderLE pg sq a b = true) (hbc : orderLE pg sq b c = true) :
    orderLE pg sq a c = true := by
  cases hs : sq.sort_by <;> simp only [orderLE, hs] at hab hbc ⊢
  · exact descNullsLast_trans _ _ _ hab hbc
  · exact ascNullsLast_trans _ _ _ hab hbc
  · simp only [decide_eq_true_eq] at *; exact le_trans hbc hab

/-! ## Claim theorems -/

/-- **C3**: for every valid `SearchRequest`, whatever optional filters are
present or absent, the predicate set used by both the page query and the
count query includes the active-only filter: `Cond.active` is always a member
of the produced condition list, every row passing the conjoined `WHERE`
clause (hence every row either query can return or count) has
`isActive = true`, and the count is unchanged by conjoining `isActive`
again. -/
theorem active_filter_never_bypassable (sq : SearchQuery) :
    Cond.active ∈ buildConditions sq ∧
    (∀ pg : PgOracle, ∀ tbl : List Restaurant,
      ∀ r ∈ pageQueryRows pg sq tbl, r.isActive = true) ∧
    (∀ pg : PgOracle, ∀ tbl : List Restaurant,
      countQueryTotal pg sq tbl =
        (tbl.filter fun r =>
          r.isActive && rowPasses pg (buildConditions sq) r).length) := by
  have hmem : Cond.active ∈ buildConditions sq := by
    simp [buildConditions]
  have hpass : ∀ (pg : PgOracle) (r : Restaurant),
      rowPasses pg (buildConditions sq) r = true → r.isActive = true := by
    intro pg r hr
    have hall := List.all_eq_true.mp hr
    have := hall Cond.active hmem
    simpa [evalCond] using this
  refine ⟨hmem, ?_, ?_⟩
  · intro pg tbl r hr
    have h1 : r ∈ sqlSort (orderLE pg sq) (filteredRows pg sq tbl) :=
      List.mem_of_mem_drop (List.mem_of_mem_take hr)
    have h2 : r ∈ filteredRows pg sq tbl :=
      (sqlSort_perm _ _).subset h1
    exact hpass pg r (List.of_mem_filter h2)
  · intro pg tbl
    unfold countQueryTotal filteredRows
    congr 1
    refine (List.filter_congr ?_).symm
    intro r _
    cases hr : rowPasses pg (buildConditions sq) r
    · simp
    · simp [hpass pg r hr]

/-- **C1**: the cache layer never propagates a backend error: a failing
backend `get` (or a deserialization failure) makes `cacheGet` return `none`
(a miss), `cacheSet` always returns normally, and with a backend that fails
on every call the search route behaves exactly as with an always-missing
cache — the response is computed from storage. -/
theorem cache_failures_absorbed (ctx : SearchCtx)
    (hget : ∀ k, ctx.backend.get k = .error ()) :
    (∀ (V : Type) (parse : String → Except Unit V) (b : CacheBackend)
      (key : String), b.get key = .error () → cacheGet parse b key = none) ∧
    (∀ (V : Type) (parse : String → Except Unit V) (b : CacheBackend)
      (key s : String), b.get key = .ok (some s) → parse s = .error () →
        cacheGet parse b key = none) ∧
    (∀ (b : CacheBackend) (key val : String),
      cacheSet b key val = Except.ok ()) ∧
    (∀ sq : SearchQuery,
      searchHandler ctx sq = searchHandler { ctx with backend := missBackend } sq) ∧
    (∀ sq : SearchQuery, distanceCoordMissing sq = false →
      (searchHandler ctx sq).1 = SearchResult.ok (storageResponse ctx sq)) := by
  have habsorb : ∀ sq : SearchQuery,
      cacheGet ctx.parse ctx.backend (searchKeyOf ctx.rt sq) = none :=
    fun sq => cacheGet_backend_error _ _ _ (hget _)
  refine ⟨fun V parse b key h => cacheGet_backend_error parse b key h,
    fun V parse b key s h hp => cacheGet_parse_error parse b key s h hp,
    fun b key val => ?_, fun sq => ?_, fun sq hdm => ?_⟩
  · unfold cacheSet
    cases b.set key val <;> rfl
  · show searchHandler ctx sq = searchHandler { ctx with backend := missBackend } sq
    unfold searchHandler
    rw [habsorb sq]
    rfl
  · unfold searchHandler
    rw [habsorb sq, hdm]
    rfl

/-- **C4**: a request with `sort_by = distance` and a missing coordinate is
answered with a 400 whose message names both `lat` and `lng`, and no storage
query is issued (given the derived key is not spuriously present in the
cache, which the route guarantees by only storing responses of requests that
passed this check). -/
theorem distance_sort_without_coords_400 (ctx : SearchCtx) (sq : SearchQuery)
    (hsort : sq.sort_by = .distance) (hcoord : sq.lat = none ∨ sq.lng = none)
    (hc : cacheGet ctx.parse ctx.backend (searchKeyOf ctx.rt sq) = none) :
    searchHandler ctx sq =
      (.invalid 400 coordErrorMsg, [Ev.cacheGetEv (searchKeyOf ctx.rt sq)]) ∧
    (∃ a b : String, coordErrorMsg = a ++ "lat" ++ b) ∧
    (∃ a b : String, coordErrorMsg = a ++ "lng" ++ b) ∧
    Ev.storagePage ∉ (searchHandler ctx sq).2 ∧
    Ev.storageCount ∉ (searchHandler ctx sq).2 ∧
    Ev.storageDishes ∉ (searchHandler ctx sq).2 := by
  have hdm : distanceCoordMissing sq = true := by
    rcases hcoord with h | h <;> simp [distanceCoordMissing, hsort, h]
  have hh : searchHandler ctx sq =
      (.invalid 400 coordErrorMsg, [Ev.cacheGetEv (searchKeyOf ctx.rt sq)]) := by
    unfold searchHandler
    rw [hc, hdm]
    rfl
  refine ⟨hh,
    ⟨"Mesafeye gore siralama icin ", " ve lng parametreleri gereklidir.", rfl⟩,
    ⟨"Mesafeye gore siralama icin lat ve ", " parametreleri gereklidir.", rfl⟩,
    ?_, ?_, ?_⟩ <;> rw [hh] <;> simp

/-- Witness for C1 at a concrete always-failing backend: the hypotheses hold
and the search response equals the storage-computed one. -/
theorem cache_failures_absorbed_witness :
    (∀ k, ctxErr.backend.get k = .error ()) ∧
    (searchHandler ctxErr sqPlain).1 = SearchResult.ok (storageResponse ctxErr sqPlain) :=
  ⟨fun _ => rfl,
    (cache_failures_absorbed ctxErr fun _ => rfl).2.2.2.2 sqPlain rfl⟩

/-- Witness for C4 at a concrete distance-sort request without coordinates. -/
theorem distance_sort_without_coords_400_witness :
    sqDistNoCoord.sort_by = .distance ∧ sqDistNoCoord.lat = none ∧
    searchHandler ctxMiss sqDistNoCoord =
      (.invalid 400 coordErrorMsg,
        [Ev.cacheGetEv (searchKeyOf ctxMiss.rt sqDistNoCoord)]) :=
  ⟨rfl, rfl,
    (distance_sort_without_coords_400 ctxMiss sqDistNoCoord rfl (Or.inl rfl) rfl).1⟩

/-- **C9**: in the restaurant-detail route an inactive venue is
indistinguishable from a nonexistent one: when every row carrying the slug is
inactive the handler returns the 404 (with the slug in the message), and a
successful lookup only ever returns an active venue with the requested
slug. -/
theorem inactive_restaurant_detail_404 (backend : CacheBackend)
    (parse : String → Except Unit String) (tbl : List Restaurant)
    (slug : String)
    (hmiss : cacheGet parse backend ("restaurant:" ++ slug) = none) :
    ((∀ r ∈ tbl, r.slug = slug → r.isActive = false) →
      restaurantDetailHandler backend parse tbl slug =
        .notFound ("Restoran bulunamadi: " ++ slug)) ∧
    (∀ r : Restaurant,
      restaurantDetailHandler backend parse tbl slug = .found r →
        r.isActive = true ∧ r.slug = slug) := by
  constructor
  · intro hinactive
    have hfil : tbl.filter (fun r => decide (r.slug = slug) && r.isActive) = [] := by
      rw [List.filter_eq_nil_iff]
      intro r hr
      by_cases h : r.slug = slug
      · simp [h, hinactive r hr h]
      · simp [h]
    simp [restaurantDetailHandler, hmiss, restaurantLookup, hfil]
  · intro r hr
    unfold restaurantDetailHandler at hr
    rw [hmiss] at hr
    cases hl : restaurantLookup tbl slug with
    | nil => rw [hl] at hr; cases hr
    | cons a t =>
      rw [hl] at hr
      have har : a = r := by cases hr; rfl
      have hmema : a ∈ restaurantLookup tbl slug := by
        rw [hl]; exact List.mem_cons_self a t
      have hmemf : a ∈ tbl.filter (fun r => decide (r.slug = slug) && r.isActive) :=
        List.mem_of_mem_take hmema
      have hp := List.of_mem_filter hmemf
      simp only [Bool.and_eq_true, decide_eq_true_eq] at hp
      exact har ▸ ⟨hp.2, hp.1⟩

/-- Witness for C9: a concrete inactive row yields the 404. -/
theorem inactive_restaurant_detail_404_witness :
    restaurantDetailHandler missBackend (fun _ => .error ()) [restInactive]
      "kapali-yer" = .notFound ("Restoran bulunamadi: " ++ "kapali-yer") :=
  (inactive_restaurant_detail_404 missBackend (fun _ => .error ())
      [restInactive] "kapali-yer" rfl).1
    (by intro r hr h; simp only [List.mem_singleton] at hr; subst hr; rfl)

/-- The `dishMap` loop, started from any accumulator, appends per venue id
the first rows encountered until that venue's list reaches 3 entries. -/
theorem foldl_dishMapStep (rows : List FoodScore) (m : Nat → List DishOut)
    (v : Nat) :
    List.foldl dishMapStep m rows v =
      m v ++ ((rows.filter fun d => d.restaurantId = v).take
        (3 - (m v).length)).map dishEntry := by
  induction rows generalizing m with
  | nil => simp
  | cons d rows ih =>
    rw [List.foldl_cons, List.filter_cons]
    by_cases hv : d.restaurantId = v
    · subst hv
      rw [if_pos (by simp)]
      by_cases hlen : (m d.restaurantId).length < 3
      · have hstep : ∀ v', dishMapStep m d v' =
            if v' = d.restaurantId then m v' ++ [dishEntry d] else m v' := by
          intro v'
          unfold dishMapStep
          by_cases h' : v' = d.restaurantId
          · rw [if_pos ⟨h', hlen⟩, if_pos h']
          · rw [if_neg fun hc => h' hc.1, if_neg h']
        rw [ih (dishMapStep m d), hstep, if_pos rfl]
        have h3 : 3 - (m d.restaurantId).length =
            (3 - ((m d.restaurantId).length + 1)) + 1 := by omega
        rw [h3, List.take_succ_cons, List.map_cons]
        simp
      · have hstep : ∀ v', dishMapStep m d v' = m v' := by
          intro v'
          unfold dishMapStep
          rw [if_neg fun hc => hlen hc.2]
        rw [ih (dishMapStep m d), hstep]
        have h0 : 3 - (m d.restaurantId).length = 0 := by omega
        rw [h0]
        simp
    · rw [if_neg (by simpa using hv)]
      have hstep : dishMapStep m d v = m v := by
        unfold dishMapStep
        rw [if_neg fun hc => hv hc.1.symm]
      rw [ih (dishMapStep m d), hstep]

/-- **C5**: per returned venue id the assembled `topDishes` list is exactly
the first 3 candidate rows for that venue in the globally score-descending
candidate order: it never contains a null score, venues with at most 3
candidate rows get all of them, venues with more get exactly 3, the list is
in descending score order, and every retained entry scores at least as high
as every dropped candidate of that venue. -/
theorem top_dishes_top3_desc (fs : List FoodScore) (ids : List Nat) (v : Nat) :
    buildDishMap (topDishesRows fs ids) v =
      (((topDishesRows fs ids).filter fun d => d.restaurantId = v).take 3).map
        dishEntry ∧
    (∀ e ∈ buildDishMap (topDishesRows fs ids) v, e.score ≠ none) ∧
    (((topDishesRows fs ids).filter fun d => d.restaurantId = v).length ≤ 3 →
      buildDishMap (topDishesRows fs ids) v =
        ((topDishesRows fs ids).filter fun d => d.restaurantId = v).map
          dishEntry) ∧
    (3 ≤ ((topDishesRows fs ids).filter fun d => d.restaurantId = v).length →
      (buildDishMap (topDishesRows fs ids) v).length = 3) ∧
    (buildDishMap (topDishesRows fs ids) v).Pairwise
      (fun a b => descNullsFirst a.score b.score = true) ∧
    (∀ d ∈ ((topDishesRows fs ids).filter fun d => d.restaurantId = v).drop 3,
      ∀ e ∈ buildDishMap (topDishesRows fs ids) v,
        descNullsFirst e.score d.score = true) := by
  have hmain : buildDishMap (topDishesRows fs ids) v =
      (((topDishesRows fs ids).filter fun d => d.restaurantId = v).take 3).map
        dishEntry := by
    unfold buildDishMap
    rw [foldl_dishMapStep]
    simp
  have hrows : (topDishesRows fs ids).Pairwise
      (fun a b => descNullsFirst a.score b.score = true) :=
    @sqlSort_pairwise FoodScore (fun a b => descNullsFirst a.score b.score)
      (fun a b c hab hbc => descNullsFirst_trans _ _ _ hab hbc)
      (fun a b => descNullsFirst_total _ _) _
  have hfilter : ((topDishesRows fs ids).filter
      fun d => d.restaurantId = v).Pairwise
      (fun a b => descNullsFirst a.score b.score = true) :=
    hrows.sublist (List.filter_sublist _)
  have hscore : ∀ d ∈ topDishesRows fs ids, d.score ≠ none := by
    intro d hd
    have hd' : d ∈ fs.filter fun d =>
        decide (d.restaurantId ∈ ids) && decide (d.score ≠ none) :=
      (sqlSort_perm _ _).subset hd
    have := List.of_mem_filter hd'
    simp only [Bool.and_eq_true, decide_eq_true_eq] at this
    exact this.2
  refine ⟨hmain, ?_, ?_, ?_, ?_, ?_⟩
  · intro e he
    rw [hmain] at he
    obtain ⟨d, hd, rfl⟩ := List.mem_map.mp he
    have hd1 : d ∈ topDishesRows fs ids :=
      List.mem_of_mem_filter (List.mem_of_mem_take hd)
    exact hscore d hd1
  · intro hle
    rw [hmain, List.take_of_length_le hle]
  · intro hge
    rw [hmain, List.length_map, List.length_take]
    omega
  · rw [hmain, List.pairwise_map]
    exact hfilter.sublist (List.take_sublist _ _)
  · intro d hd e he
    rw [hmain] at he
    obtain ⟨d', hd', rfl⟩ := List.mem_map.mp he
    show descNullsFirst d'.score d.score = true
    rw [← List.take_append_drop 3 ((topDishesRows fs ids).filter
      fun d => d.restaurantId = v), List.pairwise_append] at hfilter
    exact hfilter.2.2 d' hd' d hd

/-- Witness for C5 on a concrete candidate set: a venue with four scored
dishes keeps exactly its three best, in descending order. -/
theorem top_dishes_top3_desc_witness :
    (((topDishesRows
        [⟨7, "iskender", some 6, 4⟩, ⟨7, "adana", some 9, 10⟩,
         ⟨7, "urfa", some 7, 5⟩, ⟨8, "kunefe", some 8, 3⟩,
         ⟨7, "ayran", none, 2⟩, ⟨7, "lahmacun", some 5, 6⟩] [7, 8]).filter
      fun d => d.restaurantId = 7).length ≤ 3 → False) ∧
    buildDishMap (topDishesRows
        [⟨7, "iskender", some 6, 4⟩, ⟨7, "adana", some 9, 10⟩,
         ⟨7, "urfa", some 7, 5⟩, ⟨8, "kunefe", some 8, 3⟩,
         ⟨7, "ayran", none, 2⟩, ⟨7, "lahmacun", some 5, 6⟩] [7, 8]) 7 =
      [⟨"adana", some 9, 10⟩, ⟨"urfa", some 7, 5⟩, ⟨"iskender", some 6, 4⟩] ∧
    (buildDishMap (topDishesRows
        [⟨7, "iskender", some 6, 4⟩, ⟨7, "adana", some 9, 10⟩,
         ⟨7, "urfa", some 7, 5⟩, ⟨8, "kunefe", some 8, 3⟩,
         ⟨7, "ayran", none, 2⟩, ⟨7, "lahmacun", some 5, 6⟩] [7, 8]) 7).length
      = 3 :=
  ⟨by decide,
   by decide,
   (top_dishes_top3_desc
      [⟨7, "iskender", some 6, 4⟩, ⟨7, "adana", some 9, 10⟩,
       ⟨7, "urfa", some 7, 5⟩, ⟨8, "kunefe", some 8, 3⟩,
       ⟨7, "ayran", none, 2⟩, ⟨7, "lahmacun", some 5, 6⟩] [7, 8] 7).2.2.2.1
     (by decide)⟩

/-- **C6 counterexample**: with two active venues at the very same point —
the earlier storage row scored 2, the later scored 9 — a distance-sorted
search returns them in storage order `[score 2, score 9]`: the equal-distance
tie is *not* broken by reputation score descending, refuting the claimed
ordering. -/
theorem distance_tiebreak_cex :
    (searchHandler ctxTie sqDist).1 = .ok (storageResponse ctxTie sqDist) ∧
    (storageResponse ctxTie sqDist).data = [vOutLow, vOutHigh] ∧
    (storageResponse ctxTie sqDist).data.map (·.id) = [1, 2] ∧
    (storageResponse ctxTie sqDist).data.map (·.overallScore) =
      [some 2, some 9] ∧
    (∃ d, (storageResponse ctxTie sqDist).data.map (·.distance) = [d, d]) ∧
    ¬ (storageResponse ctxTie sqDist).data.Pairwise
        (fun a b => specDistanceLE a b = true) := by
  have hdata : (storageResponse ctxTie sqDist).data = [vOutLow, vOutHigh] := rfl
  refine ⟨rfl, hdata, by rw [hdata]; rfl, by rw [hdata]; rfl,
    ⟨some ((0 : ℚ) / 1000), by rw [hdata]; rfl⟩, ?_⟩
  rw [hdata]
  intro hpw
  have hrel := (List.pairwise_cons.mp hpw).1 vOutHigh (List.mem_singleton.mpr rfl)
  have : specDistanceLE vOutLow vOutHigh = false := by
    show (decide ((0 : ℚ) / 1000 < (0 : ℚ) / 1000) ||
      (decide ((0 : ℚ) / 1000 = (0 : ℚ) / 1000) &&
        descNullsLast (some 2) (some 9))) = false
    have h1 : decide ((0 : ℚ) / 1000 < (0 : ℚ) / 1000) = false := by
      simp
    have h2 : descNullsLast (some (2 : ℚ)) (some 9) = false := by
      simp only [descNullsLast, decide_eq_false_iff_not]
      norm_num
    rw [h1, h2]
    simp
  rw [hrel] at this
  cases this

/-- **C6 amended**: for every request the page rows are ordered by the single
primary `ORDER BY` expression the route builds — distance ascending when
`sort_by = distance`, creation timestamp descending when `sort_by = recency`
— with *no* reputation-score tie-break; ties stay in the storage engine's
order. -/
theorem page_rows_sorted_primary (pg : PgOracle) (sq : SearchQuery)
    (tbl : List Restaurant) :
    (pageQueryRows pg sq tbl).Pairwise
      (fun a b => orderLE pg sq a b = true) ∧
    (sq.sort_by = .distance → (pageQueryRows pg sq tbl).Pairwise
      (fun a b =>
        ascNullsLast (distExpr pg (sq.lat.getD 0) (sq.lng.getD 0) a)
          (distExpr pg (sq.lat.getD 0) (sq.lng.getD 0) b) = true)) ∧
    (sq.sort_by = .newest → (pageQueryRows pg sq tbl).Pairwise
      (fun a b => b.createdAt ≤ a.createdAt)) := by
  have hsorted : (sqlSort (orderLE pg sq) (filteredRows pg sq tbl)).Pairwise
      (fun a b => orderLE pg sq a b = true) :=
    @sqlSort_pairwise Restaurant (orderLE pg sq)
      (fun a b c hab hbc => orderLE_trans pg sq a b c hab hbc)
      (fun a b => orderLE_total pg sq a b) _
  have hmain : (pageQueryRows pg sq tbl).Pairwise
      (fun a b => orderLE pg sq a b = true) :=
    hsorted.sublist ((List.take_sublist _ _).trans (List.drop_sublist _ _))
  refine ⟨hmain, fun hs => ?_, fun hs => ?_⟩
  · refine hmain.imp ?_
    intro a b hab
    rw [orderLE, hs] at hab
    exact hab
  · refine hmain.imp ?_
    intro a b hab
    rw [orderLE, hs] at hab
    simpa using hab

/-- Witness for the amended C6 at the concrete tie fixture: the returned page
is sorted by the distance expression (ascending). -/
theorem page_rows_sorted_primary_witness :
    (pageQueryRows pgT sqDist [restTieLow, restTieHigh]).Pairwise
      (fun a b =>
        ascNullsLast (distExpr pgT (sqDist.lat.getD 0) (sqDist.lng.getD 0) a)
          (distExpr pgT (sqDist.lat.getD 0) (sqDist.lng.getD 0) b) = true) :=
  (page_rows_sorted_primary pgT sqDist [restTieLow, restTieHigh]).2.1 rfl

/-- Whatever `zodValidateRest` accepts carries the raw query text unchanged. -/
theorem zodValidateRest_q (r : RawQuery) (qs : String) (sq : SearchQuery)
    (h : zodValidateRest r qs = some sq) : sq.q = qs := by
  simp only [zodValidateRest, Option.pure_def, Option.bind_eq_bind,
    Option.bind_eq_some, Option.some.injEq] at h
  obtain ⟨d, -, c, -, p, -, m, -, sb, -, pg, -, li, -, la, -, ln, -, h⟩ := h
  subst h
  rfl

/-- A failing `q` rule rejects the whole request. -/
theorem zodValidate_q_fail (r : RawQuery) (s : String) (hq : r.q = some s)
    (hck : zodQCheck s = false) : zodValidate r = none := by
  unfold zodValidate
  rw [hq]
  simp [hck]

/-- **C7 counterexample**: the coordinate-presence check of the distance sort
runs *after* the cache lookup: on a schema-valid request with
`sort_by = distance` and no coordinates the pipeline returns the
`ValidationError`, yet its I/O trace already contains the cache `get` — this
validation failure does not fail fast before all I/O. -/
theorem validation_after_cache_io_cex :
    (searchPipeline ctxMiss rawDistNoCoord).1 = .invalid 400 coordErrorMsg ∧
    (searchPipeline ctxMiss rawDistNoCoord).2 =
      [Ev.cacheGetEv (searchKeyOf ctxMiss.rt sqDistNoCoord)] ∧
    (searchPipeline ctxMiss rawDistNoCoord).2 ≠ [] :=
  ⟨rfl, rfl, by
    rw [show (searchPipeline ctxMiss rawDistNoCoord).2 =
      [Ev.cacheGetEv (searchKeyOf ctxMiss.rt sqDistNoCoord)] from rfl]
    simp⟩

/-- **C7 amended**: schema-validation failures issue no I/O at all; the
in-handler coordinate check, the only other validation, can fail only after
the cache lookup, and on its failure the trace holds nothing but cache
`get`s — no storage query, no cache store. -/
theorem validation_failure_io_bound (ctx : SearchCtx) (raw : RawQuery) :
    (zodValidate raw = none → searchPipeline ctx raw = (.schemaError, [])) ∧
    (∀ st m, (searchPipeline ctx raw).1 = .invalid st m →
      ∀ e ∈ (searchPipeline ctx raw).2, ∃ k, e = Ev.cacheGetEv k) := by
  constructor
  · intro hz
    unfold searchPipeline
    rw [hz]
  · intro st m hinv e he
    unfold searchPipeline searchHandler at hinv he
    cases hz : zodValidate raw with
    | none =>
      simp only [hz] at hinv
      simp at hinv
    | some sq =>
      simp only [hz] at hinv he
      cases hc : cacheGet ctx.parse ctx.backend (searchKeyOf ctx.rt sq) with
      | some v =>
        simp only [hc] at hinv
        simp at hinv
      | none =>
        simp only [hc] at hinv he
        by_cases hdm : distanceCoordMissing sq = true
        · simp only [hdm, if_true] at he
          simp only [List.mem_singleton] at he
          exact ⟨_, he⟩
        · simp only [if_neg hdm] at hinv
          simp at hinv

/-- Witness for the amended C7: a schema-invalid request (one-character
query) produces no I/O at all. -/
theorem validation_failure_io_bound_witness :
    searchPipeline ctxMiss rawShortQ = (.schemaError, []) :=
  (validation_failure_io_bound ctxMiss rawShortQ).1 rfl

/-- **C8 counterexample**: the search route checks the length of the *raw*
query — `" a "` (raw length 3, trimmed length 1) passes validation and the
search runs with the untrimmed `" a "`, while the claim requires it to be
rejected because its trimmed length is below 2. -/
theorem q_length_untrimmed_cex :
    (jsTrim " a ").length = 1 ∧
    zodValidate rawPadded = some sqPadded ∧
    sqPadded.q = " a " ∧
    (searchPipeline ctxMiss rawPadded).1 =
      .ok (storageResponse ctxMiss sqPadded) :=
  ⟨by decide, by decide, rfl, rfl⟩

/-- **C8 amended**: the length rule is `z.string().min(2).max(100)` on the
raw, untrimmed query: a present query is accepted only if its raw length is
in `[2, 100]`, it is passed through unchanged (never trimmed), and a raw
length outside the bounds rejects the request. -/
theorem q_length_check_untrimmed (raw : RawQuery) (s : String)
    (hq : raw.q = some s) :
    ((zodValidate raw).isSome → 2 ≤ s.length ∧ s.length ≤ 100) ∧
    (∀ sq : SearchQuery, zodValidate raw = some sq → sq.q = s) ∧
    (s.length < 2 → zodValidate raw = none) ∧
    (100 < s.length → zodValidate raw = none) := by
  have hck_of : ∀ sq : SearchQuery, zodValidate raw = some sq →
      zodQCheck s = true ∧ zodValidateRest raw s = some sq := by
    intro sq h
    unfold zodValidate at h
    rw [hq] at h
    simp only [Option.pure_def, Option.bind_eq_bind, Option.some_bind] at h
    by_cases hck : zodQCheck s = true
    · rw [if_pos hck] at h
      exact ⟨hck, h⟩
    · rw [if_neg hck] at h
      cases h
  refine ⟨?_, ?_, ?_, ?_⟩
  · intro hs
    obtain ⟨sq, hsq⟩ := Option.isSome_iff_exists.mp hs
    have := (hck_of sq hsq).1
    simp only [zodQCheck, Bool.and_eq_true, decide_eq_true_eq] at this
    exact this
  · intro sq h
    exact zodValidateRest_q raw s sq (hck_of sq h).2
  · intro hlt
    refine zodValidate_q_fail raw s hq ?_
    simp only [zodQCheck, Bool.and_eq_false_iff, decide_eq_false_iff_not]
    omega
  · intro hgt
    refine zodValidate_q_fail raw s hq ?_
    simp only [zodQCheck, Bool.and_eq_false_iff, decide_eq_false_iff_not]
    omega

/-- Witness for the amended C8 at `" a "`: the padded query is accepted and
passed through untrimmed. -/
theorem q_length_check_untrimmed_witness :
    sqPadded.q = " a " ∧ 2 ≤ (" a " : String).length :=
  ⟨(q_length_check_untrimmed rawPadded " a " rfl).2.1 sqPadded (by decide),
   by decide⟩

theorem acRestaurantLE_trans (pg : PgOracle) (q : String) (a b c : Restaurant)
    (hab : acRestaurantLE pg q a b = true) (hbc : acRestaurantLE pg q b c = true) :
    acRestaurantLE pg q a c = true := by
  simp only [acRestaurantLE, Bool.or_eq_true, Bool.and_eq_true,
    decide_eq_true_eq] at hab hbc ⊢
  rcases hab with hab | ⟨hab, hab'⟩ <;> rcases hbc with hbc | ⟨hbc, hbc'⟩
  · exact Or.inl (lt_trans hbc hab)
  · exact Or.inl (hbc ▸ hab)
  · exact Or.inl (lt_of_lt_of_eq hbc hab.symm)
  · exact Or.inr ⟨hab.trans hbc, descNullsFirst_trans _ _ _ hab' hbc'⟩

theorem acRestaurantLE_total (pg : PgOracle) (q : String) (a b : Restaurant) :
    acRestaurantLE pg q a b = true ∨ acRestaurantLE pg q b a = true := by
  simp only [acRestaurantLE, Bool.or_eq_true, Bool.and_eq_true,
    decide_eq_true_eq]
  rcases lt_trichotomy (pg.similarity a.name q) (pg.similarity b.name q) with
    h | h | h
  · exact Or.inr (Or.inl h)
  · rcases descNullsFirst_total a.overallScore b.overallScore with h' | h'
    · exact Or.inl (Or.inr ⟨h, h'⟩)
    · exact Or.inr (Or.inr ⟨h.symm, h'⟩)
  · exact Or.inl (Or.inl h)

theorem acDishLE_trans (pg : PgOracle) (q : String) (a b c : Dish)
    (hab : acDishLE pg q a b = true) (hbc : acDishLE pg q b c = true) :
    acDishLE pg q a c = true := by
  simp only [acDishLE, decide_eq_true_eq] at hab hbc ⊢
  exact le_trans hbc hab

theorem acDishLE_total (pg : PgOracle) (q : String) (a b : Dish) :
    acDishLE pg q a b = true ∨ acDishLE pg q b a = true := by
  simp only [acDishLE, decide_eq_true_eq]
  exact le_total (pg.similarity (dishSimDoc b) q)
    (pg.similarity (dishSimDoc a) q)

/-- **C10**: on a cache miss the autocomplete route returns the two query
results assembled verbatim: at most 5 restaurant and 5 dish suggestions,
restaurants ordered by trigram similarity descending with ties broken by
overall score descending, dishes by similarity descending, and every
suggested restaurant is active. -/
theorem autocomplete_bounded_sorted_active (pg : PgOracle)
    (backend : CacheBackend) (parse : String → Except Unit AcResponse)
    (rtbl : List Restaurant) (dtbl : List Dish) (fs : List FoodScore)
    (rawQ : String)
    (hmiss : cacheGet parse backend (acKeyOf rawQ) = none) :
    autocompleteHandler pg backend parse rtbl dtbl fs rawQ =
      .ok (acResponseOf pg rtbl dtbl fs (jsTrim rawQ)) ∧
    (acResponseOf pg rtbl dtbl fs (jsTrim rawQ)).restaurants.length ≤ 5 ∧
    (acResponseOf pg rtbl dtbl fs (jsTrim rawQ)).dishes.length ≤ 5 ∧
    (acResponseOf pg rtbl dtbl fs (jsTrim rawQ)).restaurants =
      (autocompleteRestaurants pg rtbl (jsTrim rawQ)).map acRestaurantOut ∧
    (acResponseOf pg rtbl dtbl fs (jsTrim rawQ)).dishes =
      (autocompleteDishes pg dtbl (jsTrim rawQ)).map (acDishOut pg fs) ∧
    (autocompleteRestaurants pg rtbl (jsTrim rawQ)).Pairwise
      (fun a b => acRestaurantLE pg (jsTrim rawQ) a b = true) ∧
    (autocompleteDishes pg dtbl (jsTrim rawQ)).Pairwise
      (fun a b => acDishLE pg (jsTrim rawQ) a b = true) ∧
    (∀ r ∈ autocompleteRestaurants pg rtbl (jsTrim rawQ), r.isActive = true) := by
  refine ⟨?_, ?_, ?_, rfl, rfl, ?_, ?_, ?_⟩
  · unfold autocompleteHandler
    rw [hmiss]
  · show ((autocompleteRestaurants pg rtbl (jsTrim rawQ)).map
      acRestaurantOut).length ≤ 5
    rw [List.length_map]
    unfold autocompleteRestaurants
    exact (List.length_take_le _ _).trans (le_refl 5)
  · show ((autocompleteDishes pg dtbl (jsTrim rawQ)).map
      (acDishOut pg fs)).length ≤ 5
    rw [List.length_map]
    unfold autocompleteDishes
    exact (List.length_take_le _ _).trans (le_refl 5)
  · exact (@sqlSort_pairwise Restaurant (acRestaurantLE pg (jsTrim rawQ))
      (fun a b c hab hbc => acRestaurantLE_trans pg _ a b c hab hbc)
      (fun a b => acRestaurantLE_total pg _ a b) _).sublist
      (List.take_sublist _ _)
  · exact (@sqlSort_pairwise Dish (acDishLE pg (jsTrim rawQ))
      (fun a b c hab hbc => acDishLE_trans pg _ a b c hab hbc)
      (fun a b => acDishLE_total pg _ a b) _).sublist
      (List.take_sublist _ _)
  · intro r hr
    have h1 : r ∈ sqlSort (acRestaurantLE pg (jsTrim rawQ))
        (rtbl.filter (acRestaurantWhere pg (jsTrim rawQ))) :=
      List.mem_of_mem_take hr
    have h2 : r ∈ rtbl.filter (acRestaurantWhere pg (jsTrim rawQ)) :=
      (sqlSort_perm _ _).subset h1
    have := List.of_mem_filter h2
    simp only [acRestaurantWhere, Bool.and_eq_true] at this
    exact this.2

/-- Witness for C10 at a concrete always-miss cache. -/
theorem autocomplete_bounded_sorted_active_witness :
    autocompleteHandler pgT missBackend (fun _ => .error ())
      [restTieLow] [] [] "keb" =
      .ok (acResponseOf pgT [restTieLow] [] [] (jsTrim "keb")) :=
  (autocomplete_bounded_sorted_active pgT missBackend (fun _ => .error ())
    [restTieLow] [] [] "keb" rfl).1

/-! ### Lemmas for the cache-key derivation (C2) -/

theorem char_eq_of_toNat_eq (a b : Char) (h : a.toNat = b.toNat) : a = b := by
  unfold Char.toNat at h
  refine Char.eq_of_val_eq (UInt32.eq_of_val_eq (Fin.eq_of_val_eq ?_))
  simpa [UInt32.toNat] using h

theorem charListLE_total (a b : List Char) :
    charListLE a b = true ∨ charListLE b a = true := by
  induction a generalizing b with
  | nil => exact Or.inl rfl
  | cons c as ih =>
    cases b with
    | nil => exact Or.inr rfl
    | cons d bs =>
      simp only [charListLE]
      rcases Nat.lt_trichotomy c.toNat d.toNat with h | h | h
      · left
        rw [if_pos h]
      · have hcd : c = d := char_eq_of_toNat_eq c d h
        subst hcd
        rcases ih bs with h' | h'
        · exact Or.inl (by simp [h'])
        · exact Or.inr (by simp [h'])
      · right
        rw [if_pos h]

theorem charListLE_trans (a b c : List Char) (hab : charListLE a b = true)
    (hbc : charListLE b c = true) : charListLE a c = true := by
  induction a generalizing b c with
  | nil => rfl
  | cons x as ih =>
    cases b with
    | nil => simp [charListLE] at hab
    | cons y bs =>
      cases c with
      | nil => simp [charListLE] at hbc
      | cons z cs =>
        simp only [charListLE] at hab hbc ⊢
        by_cases hxy : x.toNat < y.toNat
        · by_cases hyz : y.toNat < z.toNat
          · rw [if_pos (Nat.lt_trans hxy hyz)]
          · by_cases hzy : z.toNat < y.toNat
            · rw [if_neg hyz, if_pos hzy] at hbc
              cases hbc
            · have : y = z := char_eq_of_toNat_eq y z (by omega)
              subst this
              rw [if_pos hxy]
        · by_cases hyx : y.toNat < x.toNat
          · rw [if_neg hxy, if_pos hyx] at hab
            cases hab
          · have hx : x = y := char_eq_of_toNat_eq x y (by omega)
            subst hx
            by_cases hyz : x.toNat < z.toNat
            · rw [if_pos hyz]
            · by_cases hzy : z.toNat < x.toNat
              · rw [if_neg hyz, if_pos hzy] at hbc
                cases hbc
              · have : x = z := char_eq_of_toNat_eq x z (by omega)
                subst this
                rw [if_neg hyz, if_neg hzy] at hbc ⊢
                rw [if_neg hxy, if_neg hyx] at hab
                exact ih bs cs hab hbc

theorem charListLE_antisymm (a b : List Char) (hab : charListLE a b = true)
    (hba : charListLE b a = true) : a = b := by
  induction a generalizing b with
  | nil =>
    cases b with
    | nil => rfl
    | cons d bs => simp [charListLE] at hba
  | cons c as ih =>
    cases b with
    | nil => simp [charListLE] at hab
    | cons d bs =>
      simp only [charListLE] at hab hba
      by_cases hcd : c.toNat < d.toNat
      · rw [if_neg (by omega), if_pos hcd] at hba
        cases hba
      · by_cases hdc : d.toNat < c.toNat
        · rw [if_neg hcd, if_pos hdc] at hab
          cases hab
        · have : c = d := char_eq_of_toNat_eq c d (by omega)
          subst this
          rw [if_neg hcd, if_neg hdc] at hab hba
          rw [ih bs hab hba]

/-- Splitting a concatenation at a separator character that cannot occur in
the left parts. -/
theorem append_sep_inj (P : Char → Bool) (l₁ l₂ r₁ r₂ : List Char)
    (d₁ d₂ : Char) (h₁ : ∀ c ∈ l₁, P c = true) (h₂ : ∀ c ∈ l₂, P c = true)
    (hd₁ : P d₁ = false) (hd₂ : P d₂ = false)
    (h : l₁ ++ d₁ :: r₁ = l₂ ++ d₂ :: r₂) : l₁ = l₂ ∧ d₁ = d₂ ∧ r₁ = r₂ := by
  induction l₁ generalizing l₂ with
  | nil =>
    cases l₂ with
    | nil =>
      simp only [List.nil_append, List.cons.injEq] at h
      exact ⟨rfl, h.1, h.2⟩
    | cons c₂ t₂ =>
      simp only [List.nil_append, List.cons_append, List.cons.injEq] at h
      exact absurd (h.1 ▸ h₂ c₂ (List.mem_cons_self _ _)) (by simp [hd₁])
  | cons c₁ t₁ ih =>
    cases l₂ with
    | nil =>
      simp only [List.cons_append, List.nil_append, List.cons.injEq] at h
      exact absurd (h.1.symm ▸ h₁ c₁ (List.mem_cons_self _ _)) (by simp [hd₂])
    | cons c₂ t₂ =>
      simp only [List.cons_append, List.cons.injEq] at h
      obtain ⟨rfl, h⟩ := h
      obtain ⟨ht, hd, hr⟩ := ih t₂ (fun c hc => h₁ c (List.mem_cons_of_mem _ hc))
        (fun c hc => h₂ c (List.mem_cons_of_mem _ hc)) h
      exact ⟨by rw [ht], hd, hr⟩

theorem escChar_cases (c : Char) :
    (c = '"' ∧ escChar c = ['\\', '"']) ∨
    (c = '\\' ∧ escChar c = ['\\', '\\']) ∨
    (c ≠ '"' ∧ c ≠ '\\' ∧ escChar c = [c]) := by
  by_cases h1 : c = '"'
  · exact Or.inl ⟨h1, by simp [escChar, h1]⟩
  · by_cases h2 : c = '\\'
    · exact Or.inr (Or.inl ⟨h2, by simp [escChar, h1, h2]⟩)
    · exact Or.inr (Or.inr ⟨h1, h2, by simp [escChar, h1, h2]⟩)

theorem escGood_escapeL (s : List Char) : EscGood (escapeL s) := by
  induction s with
  | nil => exact .nil
  | cons c t ih =>
    show EscGood (escChar c ++ escapeL t)
    rcases escChar_cases c with ⟨-, he⟩ | ⟨-, he⟩ | ⟨h1, h2, he⟩ <;> rw [he]
    · exact .esc _ _ ih
    · exact .esc _ _ ih
    · exact .plain c _ h1 h2 ih

theorem escapeL_inj (s₁ s₂ : List Char) (h : escapeL s₁ = escapeL s₂) :
    s₁ = s₂ := by
  induction s₁ generalizing s₂ with
  | nil =>
    cases s₂ with
    | nil => rfl
    | cons c t =>
      exfalso
      rcases escChar_cases c with ⟨-, he⟩ | ⟨-, he⟩ | ⟨-, -, he⟩ <;>
        · rw [show escapeL (c :: t) = escChar c ++ escapeL t from rfl, he] at h
          cases h
  | cons c₁ t₁ ih =>
    cases s₂ with
    | nil =>
      exfalso
      rcases escChar_cases c₁ with ⟨-, he⟩ | ⟨-, he⟩ | ⟨-, -, he⟩ <;>
        · rw [show escapeL (c₁ :: t₁) = escChar c₁ ++ escapeL t₁ from rfl, he] at h
          cases h
    | cons c₂ t₂ =>
      rw [show escapeL (c₁ :: t₁) = escChar c₁ ++ escapeL t₁ from rfl,
        show escapeL (c₂ :: t₂) = escChar c₂ ++ escapeL t₂ from rfl] at h
      rcases escChar_cases c₁ with ⟨hc₁, he₁⟩ | ⟨hc₁, he₁⟩ | ⟨ha₁, hb₁, he₁⟩ <;>
        rcases escChar_cases c₂ with ⟨hc₂, he₂⟩ | ⟨hc₂, he₂⟩ | ⟨ha₂, hb₂, he₂⟩ <;>
        rw [he₁, he₂] at h <;>
        simp at h <;>
        first
          | rw [hc₁, hc₂, ih t₂ h]
          | exact (hb₂ h.1).elim
          | exact (hb₂ h.1.symm).elim
          | exact (hb₁ h.1).elim
          | exact (hb₁ h.1.symm).elim
          | rw [h.1, ih t₂ h.2]

theorem escGood_quote_split (e₁ : List Char) (h₁ : EscGood e₁)
    (e₂ r₁ r₂ : List Char) (h₂ : EscGood e₂)
    (h : e₁ ++ '"' :: r₁ = e₂ ++ '"' :: r₂) : e₁ = e₂ ∧ r₁ = r₂ := by
  induction h₁ generalizing e₂ with
  | nil =>
    cases h₂ with
    | nil => simpa using h
    | plain c t hc hcs ht =>
      simp only [List.nil_append, List.cons_append, List.cons.injEq] at h
      exact absurd h.1.symm hc
    | esc c t ht =>
      simp only [List.nil_append, List.cons_append, List.cons.injEq] at h
      exact absurd h.1 (by decide)
  | plain c t hc hcs ht ih =>
    cases h₂ with
    | nil =>
      simp only [List.cons_append, List.nil_append, List.cons.injEq] at h
      exact absurd h.1 hc
    | plain c' t' hc' hcs' ht' =>
      simp only [List.cons_append, List.cons.injEq] at h
      obtain ⟨ht'', hr⟩ := ih t' ht' h.2
      exact ⟨by rw [h.1, ht''], hr⟩
    | esc c' t' ht' =>
      simp only [List.cons_append, List.cons.injEq] at h
      exact absurd h.1 hcs
  | esc c t ht ih =>
    cases h₂ with
    | nil =>
      simp only [List.cons_append, List.nil_append, List.cons.injEq] at h
      exact absurd h.1 (by decide)
    | plain c' t' hc' hcs' ht' =>
      simp only [List.cons_append, List.cons.injEq] at h
      exact absurd h.1.symm hcs'
    | esc c' t' ht' =>
      simp only [List.cons_append, List.cons.injEq] at h
      obtain ⟨ht'', hr⟩ := ih t' ht' h.2.2
      exact ⟨by rw [h.2.1, ht''], hr⟩

/-- Keys contain no character needing escape, so they serialize verbatim. -/
theorem escapeL_of_keyChars (l : List Char)
    (hk : ∀ c ∈ l, isKeyChar c = true) : escapeL l = l := by
  induction l with
  | nil => rfl
  | cons c t ih =>
    have hc := hk c (List.mem_cons_self _ _)
    have h1 : c ≠ '"' := by
      intro he
      rw [he] at hc
      simp [isKeyChar] at hc
    have h2 : c ≠ '\\' := by
      intro he
      rw [he] at hc
      simp [isKeyChar] at hc
    show escChar c ++ escapeL t = c :: t
    rw [show escChar c = [c] by simp [escChar, h1, h2],
      ih fun c' hc' => hk c' (List.mem_cons_of_mem _ hc')]
    rfl

theorem string_data_inj (a b : String) (h : a.data = b.data) : a = b := by
  cases a
  cases b
  simp only at h
  rw [h]

theorem sep_not_numChar (d : Char) (hd : d = ',' ∨ d = rbrace) :
    isNumChar d = false := by
  rcases hd with h | h <;> subst h <;> decide

theorem valGood_sep_split (v₁ v₂ : List Char) (h₁ : ValGood v₁)
    (h₂ : ValGood v₂) (d₁ d₂ : Char) (r₁ r₂ : List Char)
    (hd₁ : d₁ = ',' ∨ d₁ = rbrace) (hd₂ : d₂ = ',' ∨ d₂ = rbrace)
    (h : v₁ ++ d₁ :: r₁ = v₂ ++ d₂ :: r₂) : v₁ = v₂ ∧ d₁ = d₂ ∧ r₁ = r₂ := by
  cases h₁ with
  | str s₁ =>
    cases h₂ with
    | str s₂ =>
      have h' : escapeL s₁ ++ '"' :: (d₁ :: r₁) =
          escapeL s₂ ++ '"' :: (d₂ :: r₂) := by
        have h0 := h
        simp only [jsonStrL, List.cons_append, List.append_assoc,
          List.singleton_append, List.cons.injEq] at h0
        exact h0.2
      obtain ⟨hesc, hrest⟩ := escGood_quote_split _ (escGood_escapeL s₁) _ _ _
        (escGood_escapeL s₂) h'
      cases hrest
      exact ⟨by simp only [jsonStrL, hesc], rfl, rfl⟩
    | num _ hne₂ hch₂ =>
      cases hv : v₂ with
      | nil => exact absurd hv hne₂
      | cons c t =>
        rw [hv] at h
        simp only [jsonStrL, List.cons_append, List.cons.injEq] at h
        have := hch₂ c (hv ▸ List.mem_cons_self _ _)
        rw [← h.1] at this
        exact absurd this (by decide)
  | num _ hne₁ hch₁ =>
    cases h₂ with
    | str s₂ =>
      cases hv : v₁ with
      | nil => exact absurd hv hne₁
      | cons c t =>
        rw [hv] at h
        simp only [jsonStrL, List.cons_append, List.cons.injEq] at h
        have := hch₁ c (hv ▸ List.mem_cons_self _ _)
        rw [h.1] at this
        exact absurd this (by decide)
    | num _ hne₂ hch₂ =>
      exact append_sep_inj isNumChar v₁ v₂ r₁ r₂ d₁ d₂ hch₁ hch₂
        (sep_not_numChar d₁ hd₁) (sep_not_numChar d₂ hd₂) h

/-- The serialized value determines the value (given number printing is
injective on the two values at hand). -/
theorem toJson_inj (rt : JsRuntime) (v₁ v₂ : JsVal) (hv₁ : WFVal rt v₁)
    (hv₂ : WFVal rt v₂)
    (hinj : ∀ m n : ℚ, v₁ = .num m → v₂ = .num n →
      rt.jsNum m = rt.jsNum n → m = n)
    (h : (v₁.toJson rt).data = (v₂.toJson rt).data) : v₁ = v₂ := by
  cases v₁ with
  | str s₁ =>
    cases v₂ with
    | str s₂ =>
      simp only [JsVal.toJson] at h
      have h' : escapeL s₁.data ++ '"' :: ([] : List Char) =
          escapeL s₂.data ++ '"' :: [] := by
        simp only [jsonStrL, List.cons.injEq] at h
        simpa using h.2
      obtain ⟨hesc, -⟩ := escGood_quote_split _ (escGood_escapeL s₁.data) _ _ _
        (escGood_escapeL s₂.data) h'
      rw [string_data_inj s₁ s₂ (escapeL_inj _ _ hesc)]
    | num n =>
      obtain ⟨hne, hch⟩ := hv₂
      simp only [JsVal.toJson] at h
      cases hj : (rt.jsNum n).data with
      | nil => exact absurd hj hne
      | cons c t =>
        rw [hj] at h
        simp only [jsonStrL, List.cons.injEq] at h
        have := hch c (hj ▸ List.mem_cons_self _ _)
        rw [← h.1] at this
        exact absurd this (by decide)
  | num m =>
    cases v₂ with
    | str s₂ =>
      obtain ⟨hne, hch⟩ := hv₁
      simp only [JsVal.toJson] at h
      cases hj : (rt.jsNum m).data with
      | nil => exact absurd hj hne
      | cons c t =>
        rw [hj] at h
        simp only [jsonStrL, List.cons.injEq] at h
        have := hch c (hj ▸ List.mem_cons_self _ _)
        rw [h.1] at this
        exact absurd this (by decide)
    | num n =>
      simp only [JsVal.toJson] at h
      rw [hinj m n rfl rfl (string_data_inj _ _ h)]

/-- The serialized member plus a separator determines the entry, the
separator and the remainder. -/
theorem renderEntry_split (rt : JsRuntime) (e₁ e₂ : String × JsVal)
    (hk₁ : WFEntry e₁) (hk₂ : WFEntry e₂)
    (hv₁ : WFVal rt e₁.2) (hv₂ : WFVal rt e₂.2)
    (hinj : ∀ m n : ℚ, e₁.2 = .num m → e₂.2 = .num n →
      rt.jsNum m = rt.jsNum n → m = n)
    (d₁ d₂ : Char) (r₁ r₂ : List Char)
    (hd₁ : d₁ = ',' ∨ d₁ = rbrace) (hd₂ : d₂ = ',' ∨ d₂ = rbrace)
    (h : renderEntry rt e₁ ++ d₁ :: r₁ = renderEntry rt e₂ ++ d₂ :: r₂) :
    e₁ = e₂ ∧ d₁ = d₂ ∧ r₁ = r₂ := by
  have hkey₁ := escapeL_of_keyChars e₁.1.data hk₁.key_chars
  have hkey₂ := escapeL_of_keyChars e₂.1.data hk₂.key_chars
  have h' : e₁.1.data ++ '"' :: (':' :: ((e₁.2.toJson rt).data ++ d₁ :: r₁)) =
      e₂.1.data ++ '"' :: (':' :: ((e₂.2.toJson rt).data ++ d₂ :: r₂)) := by
    have h0 := h
    simp only [renderEntry, jsonStrL, hkey₁, hkey₂, List.cons_append,
      List.append_assoc, List.singleton_append, List.cons.injEq] at h0
    simpa using h0.2
  obtain ⟨hkeq, -, hrest⟩ := append_sep_inj isKeyChar _ _ _ _ '"' '"'
    hk₁.key_chars hk₂.key_chars (by decide) (by decide) h'
  have hrest' : (e₁.2.toJson rt).data ++ d₁ :: r₁ =
      (e₂.2.toJson rt).data ++ d₂ :: r₂ := by
    injection hrest
  have hvgood : ∀ (v : JsVal), WFVal rt v → ValGood (v.toJson rt).data := by
    intro v hv
    cases v with
    | str s => exact .str s.data
    | num n => exact .num _ hv.1 hv.2
  obtain ⟨hveq, hdeq, hreq⟩ := valGood_sep_split _ _ (hvgood _ hv₁)
    (hvgood _ hv₂) d₁ d₂ r₁ r₂ hd₁ hd₂ hrest'
  refine ⟨?_, hdeq, hreq⟩
  have hkeys : e₁.1 = e₂.1 := string_data_inj _ _ hkeq
  have hvals : e₁.2 = e₂.2 := toJson_inj rt _ _ hv₁ hv₂ hinj hveq
  exact Prod.ext hkeys hvals

theorem renderEntries_cons (rt : JsRuntime) (e : String × JsVal)
    (t : List (String × JsVal)) :
    renderEntries rt (e :: t) = renderEntry rt e ++
      (match t with
       | [] => [rbrace]
       | _ :: _ => ',' :: renderEntries rt t) := by
  cases t <;> rfl

/-- The serialized member list determines the entry list. -/
theorem renderEntries_inj (rt : JsRuntime) (l₁ l₂ : List (String × JsVal))
    (hwf₁ : ∀ e ∈ l₁, WFEntry e ∧ WFVal rt e.2)
    (hwf₂ : ∀ e ∈ l₂, WFEntry e ∧ WFVal rt e.2)
    (hinj : ∀ m n : ℚ, JsVal.num m ∈ l₁.map Prod.snd →
      JsVal.num n ∈ l₂.map Prod.snd → rt.jsNum m = rt.jsNum n → m = n)
    (h : renderEntries rt l₁ = renderEntries rt l₂) : l₁ = l₂ := by
  induction l₁ generalizing l₂ with
  | nil =>
    cases l₂ with
    | nil => rfl
    | cons e t =>
      rw [renderEntries_cons,
        show renderEntry rt e =
          '"' :: ((escapeL e.1.data ++ ['"']) ++ ':' :: (e.2.toJson rt).data)
          from rfl] at h
      simp only [renderEntries, List.cons_append, List.cons.injEq] at h
      exact absurd h.1 (by decide)
  | cons e₁ t₁ ih =>
    cases l₂ with
    | nil =>
      rw [renderEntries_cons,
        show renderEntry rt e₁ =
          '"' :: ((escapeL e₁.1.data ++ ['"']) ++ ':' :: (e₁.2.toJson rt).data)
          from rfl] at h
      simp only [renderEntries, List.cons_append, List.cons.injEq] at h
      exact absurd h.1 (by decide)
    | cons e₂ t₂ =>
      rw [renderEntries_cons, renderEntries_cons] at h
      have hwe₁ := hwf₁ e₁ (List.mem_cons_self _ _)
      have hwe₂ := hwf₂ e₂ (List.mem_cons_self _ _)
      have hinj₁ : ∀ m n : ℚ, e₁.2 = .num m → e₂.2 = .num n →
          rt.jsNum m = rt.jsNum n → m = n := by
        intro m n hm hn
        exact hinj m n
          (by rw [← hm]; exact List.mem_map_of_mem _ (List.mem_cons_self _ _))
          (by rw [← hn]; exact List.mem_map_of_mem _ (List.mem_cons_self _ _))
      cases t₁ with
      | nil =>
        cases t₂ with
        | nil =>
          obtain ⟨he, -, -⟩ := renderEntry_split rt e₁ e₂ hwe₁.1 hwe₂.1
            hwe₁.2 hwe₂.2 hinj₁ rbrace rbrace [] [] (Or.inr rfl) (Or.inr rfl) h
          rw [he]
        | cons x xs =>
          obtain ⟨-, hd, -⟩ := renderEntry_split rt e₁ e₂ hwe₁.1 hwe₂.1
            hwe₁.2 hwe₂.2 hinj₁ rbrace ',' [] (renderEntries rt (x :: xs))
            (Or.inr rfl) (Or.inl rfl) h
          exact absurd hd (by decide)
      | cons y ys =>
        cases t₂ with
        | nil =>
          obtain ⟨-, hd, -⟩ := renderEntry_split rt e₁ e₂ hwe₁.1 hwe₂.1
            hwe₁.2 hwe₂.2 hinj₁ ',' rbrace (renderEntries rt (y :: ys)) []
            (Or.inl rfl) (Or.inr rfl) h
          exact absurd hd (by decide)
        | cons x xs =>
          obtain ⟨he, -, hr⟩ := renderEntry_split rt e₁ e₂ hwe₁.1 hwe₂.1
            hwe₁.2 hwe₂.2 hinj₁ ',' ',' (renderEntries rt (y :: ys))
            (renderEntries rt (x :: xs)) (Or.inl rfl) (Or.inl rfl) h
          have ht := ih (x :: xs)
            (fun e hm => hwf₁ e (List.mem_cons_of_mem _ hm))
            (fun e hm => hwf₂ e (List.mem_cons_of_mem _ hm))
            (fun m n hm hn => hinj m n
              (by rw [List.map_cons]; exact List.mem_cons_of_mem _ hm)
              (by rw [List.map_cons]; exact List.mem_cons_of_mem _ hn)) hr
          rw [he, ht]

/-- The serialized object determines the (ordered) entry list. -/
theorem jsonOfEntriesL_inj (rt : JsRuntime) (l₁ l₂ : List (String × JsVal))
    (hwf₁ : ∀ e ∈ l₁, WFEntry e ∧ WFVal rt e.2)
    (hwf₂ : ∀ e ∈ l₂, WFEntry e ∧ WFVal rt e.2)
    (hinj : ∀ m n : ℚ, JsVal.num m ∈ l₁.map Prod.snd →
      JsVal.num n ∈ l₂.map Prod.snd → rt.jsNum m = rt.jsNum n → m = n)
    (h : jsonOfEntriesL rt l₁ = jsonOfEntriesL rt l₂) : l₁ = l₂ := by
  simp only [jsonOfEntriesL, List.cons.injEq, true_and] at h
  exact renderEntries_inj rt l₁ l₂ hwf₁ hwf₂ hinj h

theorem strLE_total (a b : String) : strLE a b = true ∨ strLE b a = true :=
  charListLE_total a.data b.data

theorem strLE_trans (a b c : String) (hab : strLE a b = true)
    (hbc : strLE b c = true) : strLE a c = true :=
  charListLE_trans a.data b.data c.data hab hbc

theorem strLE_antisymm (a b : String) (hab : strLE a b = true)
    (hba : strLE b a = true) : a = b :=
  string_data_inj a b (charListLE_antisymm a.data b.data hab hba)

theorem entrySortKey_data (rt : JsRuntime) (e : String × JsVal) :
    (entrySortKey rt e).data = e.1.data ++ ',' :: (e.2.coerceStr rt).data := by
  simp [entrySortKey, String.data_append, List.append_assoc]

/-- Equal sort keys force equal entry keys (keys never contain a comma). -/
theorem entrySortKey_key_eq (rt : JsRuntime) (a b : String × JsVal)
    (hka : ∀ c ∈ a.1.data, isKeyChar c = true)
    (hkb : ∀ c ∈ b.1.data, isKeyChar c = true)
    (h : entrySortKey rt a = entrySortKey rt b) : a.1 = b.1 := by
  apply string_data_inj
  have hd : a.1.data ++ ',' :: (a.2.coerceStr rt).data =
      b.1.data ++ ',' :: (b.2.coerceStr rt).data := by
    rw [← entrySortKey_data, ← entrySortKey_data, h]
  exact (append_sep_inj isKeyChar _ _ _ _ ',' ',' hka hkb (by decide)
    (by decide) hd).1

/-- The JS default sort yields one canonical order: two permuted entry lists
with well-formed, duplicate-free keys sort identically. -/
theorem sortEntries_perm_eq (rt : JsRuntime) (l₁ l₂ : List (String × JsVal))
    (hp : l₁.Perm l₂)
    (hk : ∀ e ∈ l₁, ∀ c ∈ (e : String × JsVal).1.data, isKeyChar c = true)
    (hnd : (l₁.map Prod.fst).Nodup) :
    sortEntries rt l₁ = sortEntries rt l₂ := by
  have hsorted₁ := @sqlSort_pairwise (String × JsVal)
    (fun a b => strLE (entrySortKey rt a) (entrySortKey rt b))
    (fun a b c hab hbc => strLE_trans _ _ _ hab hbc)
    (fun a b => strLE_total _ _) l₁
  have hsorted₂ := @sqlSort_pairwise (String × JsVal)
    (fun a b => strLE (entrySortKey rt a) (entrySortKey rt b))
    (fun a b c hab hbc => strLE_trans _ _ _ hab hbc)
    (fun a b => strLE_total _ _) l₂
  have hperm : (sortEntries rt l₁).Perm (sortEntries rt l₂) :=
    (sqlSort_perm _ _).trans (hp.trans (sqlSort_perm _ _).symm)
  refine List.Perm.eq_of_sorted ?_ hsorted₁ hsorted₂ hperm
  intro a b ha hb hab hba
  have ha' : a ∈ l₁ := (sqlSort_perm _ _).subset ha
  have hb' : b ∈ l₁ := hp.symm.subset ((sqlSort_perm _ _).subset hb)
  have hkey : entrySortKey rt a = entrySortKey rt b :=
    strLE_antisymm _ _ hab hba
  exact List.inj_on_of_nodup_map hnd ha' hb'
    (entrySortKey_key_eq rt a b (hk a ha') (hk b hb') hkey)

/-- **C2**: the derived cache key is order-independent and injective before
hashing: two requests carrying the same field-to-value mapping (entries equal
up to permutation) get the same key; the key is always the fixed-length
`search:` + 32 hex digest (39 characters); and two different mappings
serialize to different md5 inputs, so their keys can only coincide through an
md5 collision on those two distinct inputs. -/
theorem cache_key_order_independent (rt : JsRuntime)
    (l₁ l₂ : List (String × JsVal))
    (hmd5 : ∀ s : String, (rt.md5hex s).length = 32)
    (hwf₁ : ∀ e ∈ l₁, WFEntry e ∧ WFVal rt e.2)
    (hwf₂ : ∀ e ∈ l₂, WFEntry e ∧ WFVal rt e.2)
    (hnd₁ : (l₁.map Prod.fst).Nodup) (hnd₂ : (l₂.map Prod.fst).Nodup)
    (hinj : ∀ m n : ℚ,
      (JsVal.num m ∈ l₁.map Prod.snd ∨ JsVal.num m ∈ l₂.map Prod.snd) →
      (JsVal.num n ∈ l₁.map Prod.snd ∨ JsVal.num n ∈ l₂.map Prod.snd) →
      rt.jsNum m = rt.jsNum n → m = n) :
    (l₁.Perm l₂ → searchCacheKey rt l₁ = searchCacheKey rt l₂) ∧
    (searchCacheKey rt l₁).length = 39 ∧
    (¬ l₁.Perm l₂ →
      searchKeyInput rt l₁ ≠ searchKeyInput rt l₂ ∧
      (searchCacheKey rt l₁ = searchCacheKey rt l₂ →
        rt.md5hex (searchKeyInput rt l₁) =
          rt.md5hex (searchKeyInput rt l₂))) := by
  refine ⟨?_, ?_, ?_⟩
  · intro hp
    unfold searchCacheKey searchKeyInput
    rw [sortEntries_perm_eq rt l₁ l₂ hp (fun e he => (hwf₁ e he).1.key_chars)
      hnd₁]
  · show ("search:" ++ rt.md5hex (searchKeyInput rt l₁)).length = 39
    rw [String.length_append, hmd5]
    rfl
  · intro hnp
    constructor
    · intro heq
      apply hnp
      have hdata : jsonOfEntriesL rt (sortEntries rt l₁) =
          jsonOfEntriesL rt (sortEntries rt l₂) := congrArg String.data heq
      have hwf₁' : ∀ e ∈ sortEntries rt l₁, WFEntry e ∧ WFVal rt e.2 :=
        fun e he => hwf₁ e ((sqlSort_perm _ _).subset he)
      have hwf₂' : ∀ e ∈ sortEntries rt l₂, WFEntry e ∧ WFVal rt e.2 :=
        fun e he => hwf₂ e ((sqlSort_perm _ _).subset he)
      have hsnd₁ : ∀ v : JsVal, v ∈ (sortEntries rt l₁).map Prod.snd →
          v ∈ l₁.map Prod.snd :=
        fun v hv => ((sqlSort_perm _ _).map Prod.snd).subset hv
      have hsnd₂ : ∀ v : JsVal, v ∈ (sortEntries rt l₂).map Prod.snd →
          v ∈ l₂.map Prod.snd :=
        fun v hv => ((sqlSort_perm _ _).map Prod.snd).subset hv
      have hsorteq := jsonOfEntriesL_inj rt (sortEntries rt l₁)
        (sortEntries rt l₂) hwf₁' hwf₂'
        (fun m n hm hn => hinj m n (Or.inl (hsnd₁ _ hm)) (Or.inr (hsnd₂ _ hn)))
        hdata
      have h2 : (sortEntries rt l₁).Perm l₂ := by
        rw [hsorteq]
        exact sqlSort_perm _ _
      exact ((sqlSort_perm _ _).symm.trans h2 :)
    · intro hkeyeq
      have hdata := congrArg String.data hkeyeq
      simp only [searchCacheKey, String.data_append] at hdata
      exact string_data_inj _ _ (List.append_cancel_left hdata)

/-- Witness for C2: the two orderings of the same `q`/`district` mapping get
one and the same 39-character key. -/
theorem cache_key_order_independent_witness :
    entriesQD.Perm entriesDQ ∧
    searchCacheKey rt0 entriesQD = searchCacheKey rt0 entriesDQ ∧
    (searchCacheKey rt0 entriesQD).length = 39 := by
  have hperm : entriesQD.Perm entriesDQ := List.Perm.swap _ _ _
  have h := cache_key_order_independent rt0 entriesQD entriesDQ
    (fun _ => rfl)
    (by
      intro e he
      simp only [entriesQD, List.mem_cons, List.not_mem_nil, or_false] at he
      rcases he with rfl | rfl
      · exact ⟨⟨by decide, by decide⟩, trivial⟩
      · exact ⟨⟨by decide, by decide⟩, trivial⟩)
    (by
      intro e he
      simp only [entriesDQ, List.mem_cons, List.not_mem_nil, or_false] at he
      rcases he with rfl | rfl
      · exact ⟨⟨by decide, by decide⟩, trivial⟩
      · exact ⟨⟨by decide, by decide⟩, trivial⟩)
    (by decide) (by decide)
    (by
      intro m n hm
      exfalso
      rcases hm with hm | hm <;> simp [entriesQD, entriesDQ] at hm)
  exact ⟨hperm, h.1 hperm, h.2.1⟩

end Iyisiniye
